import Mathlib

/-!
# Verification of the DAX financial-records engine

Shallow embedding of the core data model, CSV import pipeline, in-memory
storage backend, and query/pagination service of `pkg/dax`
(`model.go`, `repository.go`, `service.go` — the latter appearing in the
repository's `pkg/weather/client.go` bundle).

Modelling conventions:
* `uuid.UUID` is modelled as `Nat`, with `0` playing `uuid.Nil`; `uuid.New()`
  is modelled by a fresh counter threaded through the operations (freshness
  is a hypothesis where it matters, discharged concretely in witnesses).
* `time.Time` is modelled as `Int` ticks.  The in-memory backend never
  writes timestamps itself (gorm auto-timestamps act only in the Postgres
  backend), so parsed records simply carry `0`.
* `float64` values are modelled by their trimmed decimal source text
  (`GoFloat := String`): no claim computes with the number, only with its
  presence and with equality of values parsed from identical strings.
  `strconv.ParseFloat` / `strconv.Atoi` are modelled by syntactic
  acceptors of the decimal grammar (range overflow of `ParseFloat` is not
  modelled; no claim depends on it).
* The Go map `map[string]*DAXRecord` is modelled as a `List DAXRecord` in
  insertion order, with the map key equal to the record's `ID` (kept unique
  by an explicit invariant).  Go's map iteration order is unspecified; the
  list order is one admissible iteration order, so a property refuted
  because it depends on that order is refuted for the Go program as well.
* The byte-level RFC 4180 parsing of `encoding/csv` is abstracted: input is
  the list of string records the reader yields; the reader's rule that every
  record must have as many fields as the header is modelled explicitly.
* Pointer aliasing of the in-memory backend (it stores `&records[i]`) is
  modelled separately by an explicit heap in namespace `Ptr`.
-/

namespace Dax

/-- `float64` values, modelled by their decimal source text (see header). -/
abbrev GoFloat := String

/-- `DAXRecord` from `pkg/dax/model.go`.  `ID = 0` plays `uuid.Nil`. -/
@[ext]
structure DAXRecord where
  ID         : Nat
  Company    : String
  Ticker     : String
  ReportType : String
  Metric     : String
  Year       : Int
  Value      : Option GoFloat
  Currency   : String
  CreatedAt  : Int
  UpdatedAt  : Int
  deriving DecidableEq, Repr, Inhabited

/-- `ImportResponse` from `pkg/dax/model.go`. -/
structure ImportResponse where
  RecordsImported : Nat
  Message         : String
  deriving DecidableEq, Repr

/-- `PaginationMeta` from `pkg/dax/model.go`. -/
structure PaginationMeta where
  Page       : Int
  Limit      : Int
  TotalCount : Int
  TotalPages : Int
  deriving DecidableEq, Repr

/-- `PaginatedResponse` from `pkg/dax/model.go`. -/
structure PaginatedResponse where
  Data       : List DAXRecord
  Pagination : PaginationMeta
  deriving DecidableEq, Repr

/-- `MetricsResponse` from `pkg/dax/model.go`. -/
structure MetricsResponse where
  Ticker  : String
  Metrics : List String
  deriving DecidableEq, Repr

/-! ## String primitives

The Lean standard-library string functions (`toLower`, `trimLeft`, `<`)
are implemented by well-founded recursion on byte positions, which the
kernel cannot evaluate; the models below recurse structurally over the
character list instead, following the byte-wise semantics of the Go
`strings` package (ASCII case mapping and whitespace, which covers every
string the engine compares). -/

/-- ASCII whitespace, as recognised by `unicode.IsSpace` on the inputs at
hand. -/
def isSpaceChar (c : Char) : Bool :=
  c == ' ' || c == '\t' || c == '\n' || c == '\r'

/-- ASCII lower-casing of one character (`unicode.ToLower`). -/
def lowerChar (c : Char) : Char :=
  if 'A' ≤ c ∧ c ≤ 'Z' then Char.ofNat (c.toNat + 32) else c

/-- `strings.ToLower`. -/
def toLowerStr (s : String) : String := String.mk (s.data.map lowerChar)

/-- `strings.TrimSpace`: drop leading and trailing whitespace. -/
def trim (s : String) : String :=
  String.mk (((s.data.dropWhile isSpaceChar).reverse.dropWhile isSpaceChar).reverse)

/-- Lexicographic comparison of character lists, byte-order as in Go's
`<` on `string` (UTF-8 byte order and code-point order agree). -/
def lexLt : List Char → List Char → Bool
  | [], [] => false
  | [], _ :: _ => true
  | _ :: _, [] => false
  | c :: cs, d :: ds =>
    if c.toNat < d.toNat then true
    else if d.toNat < c.toNat then false
    else lexLt cs ds

/-- Go's `<` on strings. -/
def strLt (a b : String) : Bool := lexLt a.data b.data

/-! ## strconv models -/

/-- Decimal digit test (`unicode` digits are not accepted by `strconv`). -/
def isDigit (c : Char) : Bool := '0' ≤ c && c ≤ '9'

/-- Strip one optional leading sign, as `strconv` does. -/
def stripSign (s : List Char) : List Char :=
  match s with
  | '+' :: rest => rest
  | '-' :: rest => rest
  | _ => s

/-- Model of `strconv.Atoi` (= `ParseInt(s, 10, 64)`): an optional sign
followed by one or more decimal digits.  Returns the parsed integer.
The int64 range check is modelled; `Atoi` fails (`ErrRange`) outside it. -/
def atoi (s : String) : Option Int :=
  let cs := s.data
  let ds := stripSign cs
  if ds.isEmpty then none
  else if ds.all isDigit then
    let mag : Nat := ds.foldl (fun n c => n * 10 + (c.toNat - '0'.toNat)) 0
    let v : Int := if cs.head? = some '-' then -(mag : Int) else (mag : Int)
    if -(2 ^ 63) ≤ v ∧ v < 2 ^ 63 then some v else none
  else none

/-- Mantissa shape of a Go float literal: `digits`, `digits.digits`,
`digits.`, or `.digits`. -/
def mantissaOK (s : List Char) : Bool :=
  match s.splitOn '.' with
  | [intPart] => !intPart.isEmpty && intPart.all isDigit
  | [intPart, fracPart] =>
      (!intPart.isEmpty || !fracPart.isEmpty) &&
        intPart.all isDigit && fracPart.all isDigit
  | _ => false

/-- Exponent shape: `e`/`E` followed by an optionally signed digit string. -/
def exponentOK (s : List Char) : Bool :=
  let ds := stripSign s
  !ds.isEmpty && ds.all isDigit

/-- Model of the syntax accepted by `strconv.ParseFloat(s, 64)`: an
optionally signed decimal mantissa with optional exponent, or the special
spellings `inf`/`infinity`/`nan` (case-insensitive, optionally signed).
Underscored literals and hexadecimal floats are not modelled; range
overflow (`ErrRange`) is not modelled. -/
def isGoFloat (s : String) : Bool :=
  let body := stripSign s.data
  let lower := String.mk (body.map lowerChar)
  if lower = "inf" || lower = "infinity" || lower = "nan" then true
  else
    match body.splitOn 'e' with
    | [m] =>
        match m.splitOn 'E' with
        | [m'] => mantissaOK m'
        | [m', e] => mantissaOK m' && exponentOK e
        | _ => false
    | [m, e] => mantissaOK m && exponentOK e
    | _ => false

/-- Model of `strconv.ParseFloat(s, 64)`: the value is the source text
itself (see header). -/
def parseFloat (s : String) : Option GoFloat :=
  if isGoFloat s then some s else none

/-! ## CSV import pipeline (`service.go`) -/

/-- `strings.TrimSpace(strings.ToLower(col))` as applied to header cells. -/
def normalizeCol (c : String) : String := trim (toLowerStr c)

/-- The required CSV columns, from `validateHeader` in `service.go`. -/
def requiredFields : List String :=
  ["company", "ticker", "report_type", "metric", "year", "value", "currency"]

/-- `validateHeader` from `service.go`: every required column name must
appear (case-insensitively, trimmed) somewhere in the header.  The Go code
collects the missing names in map-iteration order; the model lists them in
the order of `requiredFields`. -/
def validateHeader (header : List String) : Except String Unit :=
  let found := header.map normalizeCol
  let missing := requiredFields.filter (fun f => !found.contains f)
  if missing.isEmpty then .ok ()
  else .error ("missing required fields: " ++ String.intercalate ", " missing)

/-- `parseCSVRow` from `service.go`: fields are read by fixed position
(0 = company, 1 = ticker, 2 = report_type, 3 = metric, 4 = year,
5 = value, 6 = currency), regardless of the header. -/
def parseCSVRow (row : List String) : Except String DAXRecord :=
  if row.length < 7 then .error "insufficient columns"
  else
    match atoi (trim (row.getD 4 "")) with
    | none => .error "invalid year"
    | some year =>
      match parseFloat (trim (row.getD 5 "")) with
      | none => .error "invalid value"
      | some value =>
        .ok { ID := 0
              Company := trim (row.getD 0 "")
              Ticker := trim (row.getD 1 "")
              ReportType := trim (row.getD 2 "")
              Metric := trim (row.getD 3 "")
              Year := year
              Value := some value
              Currency := trim (row.getD 6 "")
              CreatedAt := 0
              UpdatedAt := 0 }

/-- The row-level loop of `ImportCSV`: reads data rows one at a time,
carrying `rowNum` (initialised to 1 and incremented only after a
successfully parsed row, exactly as in the Go loop).  A row whose field
count differs from the header's is rejected by `encoding/csv`'s reader
itself (`ErrFieldCount`), surfacing as the `failed to read CSV row` error
wrapping the reader's own `csv.ParseError` text, which names the physical
file line (`rowNum + 1` for a file without embedded newlines or blank
lines); a row the reader yields but `parseCSVRow` rejects surfaces as
`invalid data at row`. -/
def parseRows (headerLen : Nat) (rows : List (List String)) (rowNum : Nat) :
    Except String (List DAXRecord) :=
  match rows with
  | [] => .ok []
  | row :: rest =>
    if row.length ≠ headerLen then
      .error ("failed to read CSV row " ++ toString rowNum ++ ": record on line " ++
        toString (rowNum + 1) ++ ": wrong number of fields")
    else
      match parseCSVRow row with
      | .error e => .error ("invalid data at row " ++ toString rowNum ++ ": " ++ e)
      | .ok record =>
        match parseRows headerLen rest (rowNum + 1) with
        | .error e => .error e
        | .ok records => .ok (record :: records)

/-! ## In-memory storage backend (`repository.go`, `InMemoryRepository`) -/

/-- The natural-key comparison from the scan in `InMemoryRepository.BulkUpsert`:
`existing.Company == rec.Company && existing.Ticker == rec.Ticker &&
existing.Metric == rec.Metric && existing.Year == rec.Year`. -/
def sameKey (existing rec : DAXRecord) : Bool :=
  existing.Company == rec.Company && existing.Ticker == rec.Ticker &&
    existing.Metric == rec.Metric && existing.Year == rec.Year

/-- The natural key of a record, as a tuple. -/
def natKey (r : DAXRecord) : String × String × String × Int :=
  (r.Company, r.Ticker, r.Metric, r.Year)

/-- The in-memory store: the entries of `map[string]*DAXRecord` in
insertion order, the map key being the record's `ID` (see header). -/
abbrev Store := List DAXRecord

/-- Go map assignment `r.records[rec.ID] = &rec`: replace the entry with
this `ID` in place if present, else append. -/
def mapInsert (st : Store) (rec : DAXRecord) : Store :=
  if st.any (fun e => e.ID == rec.ID) then
    st.map (fun e => if e.ID == rec.ID then rec else e)
  else
    st ++ [rec]

/-- One iteration of the loop in `InMemoryRepository.BulkUpsert`: assign a
fresh `ID` if none is set (the counter models `uuid.New()` and advances
whether or not the record ends up keeping that `ID`), scan for an existing
record with the same natural key, and on a hit retain its `ID` and
`CreatedAt`; finally store under the (possibly rewritten) `ID`. -/
def upsertOne (st : Store) (ctr : Nat) (rec : DAXRecord) : Store × Nat :=
  let (rec1, ctr') := if rec.ID = 0 then ({ rec with ID := ctr }, ctr + 1) else (rec, ctr)
  match st.find? (fun existing => sameKey existing rec1) with
  | some existing =>
      (mapInsert st { rec1 with ID := existing.ID, CreatedAt := existing.CreatedAt }, ctr')
  | none => (mapInsert st rec1, ctr')

/-- `InMemoryRepository.BulkUpsert`: the records are processed in order
(`for i := range records`); an empty slice is a no-op. -/
def bulkUpsert (st : Store) (ctr : Nat) (records : List DAXRecord) : Store × Nat :=
  records.foldl (fun p rec => upsertOne p.1 p.2 rec) (st, ctr)

/-- `InMemoryRepository.Create`: assign a fresh `ID` if none is set and
store under it — no natural-key scan. -/
def create (st : Store) (ctr : Nat) (rec : DAXRecord) : Store × Nat :=
  let (rec1, ctr') := if rec.ID = 0 then ({ rec with ID := ctr }, ctr + 1) else (rec, ctr)
  (mapInsert st rec1, ctr')

/-- The comparator passed to `sort.Slice` in `FindAll`/`FindByFilters`:
year descending, then ticker ascending, then metric ascending. -/
def daxLess (a b : DAXRecord) : Bool :=
  if a.Year ≠ b.Year then decide (a.Year > b.Year)
  else if a.Ticker ≠ b.Ticker then strLt a.Ticker b.Ticker
  else strLt a.Metric b.Metric

/-- The non-strict order induced by the comparator: `sort.Slice` guarantees
exactly that consecutive elements `a, b` of its output satisfy `¬ less b a`. -/
def daxLE (a b : DAXRecord) : Prop := daxLess b a = false

instance : DecidableRel daxLE := fun a b => instDecidableEqBool (daxLess b a) false

/-- Go slice expression `l[lo:hi]` on a slice of length `len l`, with Go's
bounds rule: panics (modelled as `none`) unless `0 ≤ lo ≤ hi ≤ len`. -/
def goSlice (l : List DAXRecord) (lo hi : Int) : Option (List DAXRecord) :=
  if 0 ≤ lo ∧ lo ≤ hi ∧ hi ≤ (l.length : Int) then
    some ((l.drop lo.toNat).take (hi - lo).toNat)
  else none

/-- The shared pagination tail of `FindAll`/`FindByFilters`: sort (modelled
by `insertionSort`, one admissible outcome of the unstable `sort.Slice`),
compute `totalCount` and `offset = (page-1)*limit`, return an empty page
when `offset ≥ totalCount`, else clamp `end` and slice.  `none` models a
slice-bounds panic (reachable only for `page < 1` or `limit < 0`). -/
def paginate (all : List DAXRecord) (page limit : Int) :
    Option (List DAXRecord × Nat) :=
  let sorted := all.insertionSort daxLE
  let totalCount := sorted.length
  let offset := (page - 1) * limit
  if offset ≥ (totalCount : Int) then some ([], totalCount)
  else
    let e := offset + limit
    let e := if e > (totalCount : Int) then (totalCount : Int) else e
    (goSlice sorted offset e).map (fun pageData => (pageData, totalCount))

/-- `InMemoryRepository.FindAll`: copy out every stored record, sort, and
paginate.  The second component is the pre-pagination total count. -/
def findAll (st : Store) (page limit : Int) : Option (List DAXRecord × Nat) :=
  paginate st page limit

/-- The row filter of `InMemoryRepository.FindByFilters`: skip when
`ticker != "" && record.Ticker != ticker` or `year != nil && record.Year != *year`. -/
def matchesFilters (ticker : String) (year : Option Int) (r : DAXRecord) : Bool :=
  (ticker == "" || r.Ticker == ticker) && (year.elim true (fun y => r.Year == y))

/-- `InMemoryRepository.FindByFilters`. -/
def findByFilters (st : Store) (ticker : String) (year : Option Int)
    (page limit : Int) : Option (List DAXRecord × Nat) :=
  paginate (st.filter (matchesFilters ticker year)) page limit

/-- The ascending string order used by `sort.Strings`. -/
def strLe (a b : String) : Prop := strLt b a = false

instance : DecidableRel strLe := fun a b => instDecidableEqBool (strLt b a) false

/-- `InMemoryRepository.GetMetrics`: the deduplicated, ascending-sorted
metric names of the records for `ticker`. -/
def getMetrics (st : Store) (ticker : String) : List String :=
  (((st.filter (fun r => r.Ticker == ticker)).map (fun r => r.Metric)).dedup).insertionSort strLe

/-- `InMemoryRepository.DeleteAll`. -/
def deleteAll (_st : Store) : Store := []

/-- `InMemoryRepository.Count`. -/
def count (st : Store) : Nat := st.length

/-! ## Query/pagination service (`service.go`) -/

/-- `Service.ImportCSV` over an already-tokenised CSV (see header): read the
header (EOF if absent), validate it, parse the data rows fail-fast, reject
an empty record set, and only then issue the single `BulkUpsert`.  The
store and counter are returned unchanged on every error path — no partial
import. -/
def importCSV (rows : List (List String)) (st : Store) (ctr : Nat) :
    Except String ImportResponse × Store × Nat :=
  match rows with
  | [] => (.error "failed to read CSV header", st, ctr)
  | header :: dataRows =>
    match validateHeader header with
    | .error e => (.error e, st, ctr)
    | .ok _ =>
      match parseRows header.length dataRows 1 with
      | .error e => (.error e, st, ctr)
      | .ok records =>
        if records.length = 0 then (.error "no records found in CSV", st, ctr)
        else
          let (st', ctr') := bulkUpsert st ctr records
          (.ok { RecordsImported := records.length
                 Message := "Successfully imported " ++ toString records.length ++ " records" },
           st', ctr')

/-- The page clamp in `Service.GetAll`/`GetByFilters`: `if page < 1 { page = 1 }`. -/
def clampPage (page : Int) : Int := if page < 1 then 1 else page

/-- The limit clamp in `Service.GetAll`/`GetByFilters`:
`if limit < 1 || limit > 100 { limit = 10 }`. -/
def clampLimit (limit : Int) : Int := if limit < 1 ∨ limit > 100 then 10 else limit

/-- `Service.GetAll`: clamp, delegate to `FindAll`, and wrap with
`totalPages = (total + limit - 1) / limit` (Go integer division; all
operands are non-negative here). -/
def getAll (st : Store) (page limit : Int) : Option PaginatedResponse :=
  let page := clampPage page
  let limit := clampLimit limit
  (findAll st page limit).map (fun (records, total) =>
    { Data := records
      Pagination :=
        { Page := page, Limit := limit, TotalCount := (total : Int)
          TotalPages := ((total : Int) + limit - 1) / limit } })

/-- `Service.GetByFilters`: clamp, delegate to `FindByFilters`, wrap. -/
def getByFilters (st : Store) (ticker : String) (year : Option Int)
    (page limit : Int) : Option PaginatedResponse :=
  let page := clampPage page
  let limit := clampLimit limit
  (findByFilters st ticker year page limit).map (fun (records, total) =>
    { Data := records
      Pagination :=
        { Page := page, Limit := limit, TotalCount := (total : Int)
          TotalPages := ((total : Int) + limit - 1) / limit } })

/-- `Service.GetMetrics`: reject an empty ticker, else delegate and wrap. -/
def serviceGetMetrics (st : Store) (ticker : String) :
    Except String MetricsResponse :=
  if ticker = "" then .error "ticker is required"
  else .ok { Ticker := ticker, Metrics := getMetrics st ticker }

end Dax

namespace Dax

/-! ## Auxiliary predicates used in the statements -/

/-- Byte-wise prefix test on character lists. -/
def isPrefixOfB : List Char → List Char → Bool
  | [], _ => true
  | _ :: _, [] => false
  | c :: cs, d :: ds => c == d && isPrefixOfB cs ds

/-- Byte-wise substring search on character lists. -/
def containsAux (needle : List Char) : List Char → Bool
  | [] => isPrefixOfB needle []
  | d :: ds => isPrefixOfB needle (d :: ds) || containsAux needle ds

/-- `strings.Contains`: does `hay` contain `needle` as a substring? -/
def containsSub (needle hay : String) : Bool := containsAux needle.data hay.data

/-- A data row the import loop accepts: the header's field count and a
successful `parseCSVRow`. -/
def rowOk (headerLen : Nat) (row : List String) : Prop :=
  row.length = headerLen ∧ ∃ rec, parseCSVRow row = .ok rec

/-- The error message the import loop produces when the `rowNum`-th data
row (1-based count of data rows, the header excluded) fails. -/
def rowFailure (headerLen : Nat) (row : List String) (rowNum : Nat) : Option String :=
  if row.length ≠ headerLen then
    some ("failed to read CSV row " ++ toString rowNum ++ ": record on line " ++
      toString (rowNum + 1) ++ ": wrong number of fields")
  else
    match parseCSVRow row with
    | .error e => some ("invalid data at row " ++ toString rowNum ++ ": " ++ e)
    | .ok _ => none

/-! ## Storage invariants and further model definitions -/

/-- Equality of the four natural-key fields. -/
def keyEqFields (a b : DAXRecord) : Prop :=
  a.Company = b.Company ∧ a.Ticker = b.Ticker ∧ a.Metric = b.Metric ∧ a.Year = b.Year

/-- The natural-key invariant: at most one stored record per
(Company, Ticker, Metric, Year). -/
def KeyUnique (st : Store) : Prop :=
  st.Pairwise (fun a b => sameKey a b = false)

/-- The map keys (record identifiers) are pairwise distinct — always true
of a Go map, maintained explicitly in the list model. -/
def IDUnique (st : Store) : Prop :=
  st.Pairwise (fun a b => a.ID ≠ b.ID)

/-- Every stored identifier is below the fresh-identifier counter (the
counter only hands out unused identifiers, as `uuid.New` does). -/
def IDsBelow (st : Store) (ctr : Nat) : Prop :=
  ∀ r ∈ st, r.ID < ctr

instance (st : Store) : Decidable (KeyUnique st) :=
  haveI : DecidableRel (fun a b : DAXRecord => sameKey a b = false) :=
    fun a b => instDecidableEqBool (sameKey a b) false
  inferInstanceAs (Decidable (st.Pairwise _))

instance (st : Store) : Decidable (IDUnique st) :=
  haveI : DecidableRel (fun a b : DAXRecord => a.ID ≠ b.ID) :=
    fun a b => instDecidableNot
  inferInstanceAs (Decidable (st.Pairwise _))

instance (st : Store) (ctr : Nat) : Decidable (IDsBelow st ctr) :=
  inferInstanceAs (Decidable (∀ r ∈ st, r.ID < ctr))

/-- The stored record with the same natural key as `probe`, if any — the
first in iteration order, as found by the scan in `BulkUpsert`. -/
def lookupKey (st : Store) (probe : DAXRecord) : Option DAXRecord :=
  st.find? (fun e => sameKey e probe)

/-- The record stored when incoming `rec` hits existing record `ex`:
`rec` with `ex`'s identifier and creation time retained. -/
def mergeInto (ex rec : DAXRecord) : DAXRecord :=
  { rec with ID := ex.ID, CreatedAt := ex.CreatedAt }

/-- The ordering promised by the spec: Year descending, then Ticker
ascending, then Metric ascending (non-strictly). -/
def specLE (a b : DAXRecord) : Prop :=
  b.Year < a.Year ∨ (a.Year = b.Year ∧
    (strLt a.Ticker b.Ticker = true ∨ (a.Ticker = b.Ticker ∧ strLt b.Metric a.Metric = false)))

/-! ## Pointer-level model of the in-memory backend

`InMemoryRepository` stores `*DAXRecord` pointers; `BulkUpsert` stores
`&records[i]`, the address of the caller's slice element, and `Create`
stores the caller's pointer itself.  To reason about aliasing this model
makes the heap explicit: a record value per address, the caller's slice
being the addresses `base, base+1, …`, and the map holding
`(identifier, address)` pairs. -/

namespace Ptr

/-- The heap: one `DAXRecord` per address (list index). -/
abbrev Heap := List DAXRecord

/-- Dereference an address. -/
def hget (h : Heap) (a : Nat) : DAXRecord := h.getD a default

/-- Write through an address. -/
def hset (h : Heap) (a : Nat) (r : DAXRecord) : Heap := h.set a r

/-- The map `map[string]*DAXRecord` at pointer level: entries
`(identifier, address)` in insertion order. -/
abbrev PtrStore := List (Nat × Nat)

/-- Go map assignment `r.records[key] = &rec` at pointer level. -/
def mapInsertPtr (st : PtrStore) (key addr : Nat) : PtrStore :=
  if st.any (fun e => e.1 == key) then
    st.map (fun e => if e.1 == key then (key, addr) else e)
  else st ++ [(key, addr)]

/-- One iteration of `BulkUpsert` at pointer level: the slice element at
`addr` is given a fresh identifier in place if nil, the scan dereferences
the stored pointers, a hit rewrites the slice element's identifier and
creation time in place, and finally the **address of the slice element**
is stored in the map. -/
def upsertOnePtr (h : Heap) (st : PtrStore) (ctr : Nat) (addr : Nat) :
    Heap × PtrStore × Nat :=
  let rec0 := hget h addr
  let p := if rec0.ID = 0 then (hset h addr { rec0 with ID := ctr }, ctr + 1) else (h, ctr)
  let h1 := p.1
  let rec1 := hget h1 addr
  match st.find? (fun e => sameKey (hget h1 e.2) rec1) with
  | some e =>
      let ex := hget h1 e.2
      let rec2 := { rec1 with ID := ex.ID, CreatedAt := ex.CreatedAt }
      (hset h1 addr rec2, mapInsertPtr st rec2.ID addr, p.2)
  | none => (h1, mapInsertPtr st rec1.ID addr, p.2)

/-- `BulkUpsert` at pointer level over the caller's slice
`[base, base + len)`. -/
def bulkUpsertPtr (h : Heap) (st : PtrStore) (ctr base len : Nat) :
    Heap × PtrStore × Nat :=
  (List.range len).foldl
    (fun acc i => upsertOnePtr acc.1 acc.2.1 acc.2.2 (base + i)) (h, st, ctr)

/-- `Create` at pointer level: stores the caller's pointer itself. -/
def createPtr (h : Heap) (st : PtrStore) (ctr : Nat) (addr : Nat) :
    Heap × PtrStore × Nat :=
  let rec0 := hget h addr
  let p := if rec0.ID = 0 then (hset h addr { rec0 with ID := ctr }, ctr + 1) else (h, ctr)
  (p.1, mapInsertPtr st (hget p.1 addr).ID addr, p.2)

/-- `FindAll` at pointer level: dereference every stored pointer into a
fresh slice of record **values** (`allRecords = append(allRecords,
*record)`), then sort and paginate exactly as the value model does. -/
def findAllPtr (h : Heap) (st : PtrStore) (page limit : Int) :
    Option (List DAXRecord × Nat) :=
  findAll (st.map (fun e => hget h e.2)) page limit

end Ptr

/-- The strict order induced by the `sort.Slice` comparator. -/
def daxLT (a b : DAXRecord) : Prop := daxLess a b = true

/-! ## Order properties of the sort comparator -/

theorem lexLt_irrefl (a : List Char) : lexLt a a = false := by
  induction a with
  | nil => rfl
  | cons c cs ih => simp [lexLt, ih]

theorem strLt_irrefl (s : String) : strLt s s = false := lexLt_irrefl s.data

theorem lexLt_asymm : ∀ {a b : List Char}, lexLt a b = true → lexLt b a = false
  | [], [], h => by simp [lexLt] at h
  | [], _ :: _, _ => rfl
  | _ :: _, [], h => by simp [lexLt] at h
  | c :: cs, d :: ds, h => by
    unfold lexLt at h ⊢
    by_cases h1 : c.toNat < d.toNat
    · rw [if_neg (by omega), if_pos h1]
    · rw [if_neg h1] at h
      by_cases h2 : d.toNat < c.toNat
      · rw [if_pos h2] at h
        cases h
      · rw [if_neg h2] at h
        rw [if_neg h2, if_neg h1]
        exact lexLt_asymm h

theorem strLt_asymm {s t : String} (h : strLt s t = true) : strLt t s = false :=
  lexLt_asymm h

theorem lexLt_trans : ∀ {a b c : List Char},
    lexLt a b = true → lexLt b c = true → lexLt a c = true
  | [], [], _, h1, _ => by simp [lexLt] at h1
  | [], _ :: _, [], _, h2 => by simp [lexLt] at h2
  | [], _ :: _, _ :: _, _, _ => rfl
  | _ :: _, [], _, h1, _ => by simp [lexLt] at h1
  | _ :: _, _ :: _, [], _, h2 => by simp [lexLt] at h2
  | x :: xs, y :: ys, z :: zs, h1, h2 => by
    unfold lexLt at h1 h2 ⊢
    by_cases hxy : x.toNat < y.toNat
    · by_cases hyz : y.toNat < z.toNat
      · rw [if_pos (by omega)]
      · rw [if_neg hyz] at h2
        by_cases hzy : z.toNat < y.toNat
        · rw [if_pos hzy] at h2
          cases h2
        · rw [if_pos (by omega)]
    · rw [if_neg hxy] at h1
      by_cases hyx : y.toNat < x.toNat
      · rw [if_pos hyx] at h1
        cases h1
      · rw [if_neg hyx] at h1
        by_cases hyz : y.toNat < z.toNat
        · rw [if_pos (by omega)]
        · rw [if_neg hyz] at h2
          by_cases hzy : z.toNat < y.toNat
          · rw [if_pos hzy] at h2
            cases h2
          · rw [if_neg hzy] at h2
            rw [if_neg (by omega), if_neg (by omega)]
            exact lexLt_trans h1 h2

theorem strLt_trans {s t u : String} (h1 : strLt s t = true)
    (h2 : strLt t u = true) : strLt s u = true :=
  lexLt_trans h1 h2

theorem lexLt_connex : ∀ {a b : List Char},
    lexLt a b = false → lexLt b a = false → a = b
  | [], [], _, _ => rfl
  | [], _ :: _, h1, _ => by simp [lexLt] at h1
  | _ :: _, [], _, h2 => by simp [lexLt] at h2
  | c :: cs, d :: ds, h1, h2 => by
    unfold lexLt at h1 h2
    by_cases hcd : c.toNat < d.toNat
    · rw [if_pos hcd] at h1
      cases h1
    · rw [if_neg hcd] at h1
      by_cases hdc : d.toNat < c.toNat
      · rw [if_pos hdc] at h2
        cases h2
      · rw [if_neg hdc] at h1
        rw [if_neg hdc, if_neg hcd] at h2
        have hn : c.toNat = d.toNat := by omega
        have hc : c = d := Char.eq_of_val_eq (UInt32.toNat.inj hn)
        rw [hc, lexLt_connex h1 h2]

theorem strLt_connex {s t : String} (h1 : strLt s t = false)
    (h2 : strLt t s = false) : s = t :=
  String.ext (lexLt_connex h1 h2)

theorem lexLt_neg_trans {a b c : List Char} (h1 : lexLt b a = false)
    (h2 : lexLt c b = false) : lexLt c a = false := by
  cases hca : lexLt c a with
  | false => rfl
  | true =>
    exfalso
    cases hab : lexLt a b with
    | true =>
      have := lexLt_trans hca hab
      rw [h2] at this
      cases this
    | false =>
      have hba : a = b := lexLt_connex hab h1
      rw [hba] at hca
      rw [hca] at h2
      cases h2

theorem strLt_neg_trans {s t u : String} (h1 : strLt t s = false)
    (h2 : strLt u t = false) : strLt u s = false :=
  lexLt_neg_trans h1 h2

/-- The comparator returns `false` exactly when the left record does not
beat the right one in the (year desc, ticker asc, metric asc) order. -/
theorem daxLess_false_iff (a b : DAXRecord) : daxLess a b = false ↔
    (a.Year < b.Year ∨ (a.Year = b.Year ∧
      (strLt b.Ticker a.Ticker = true ∨
        (a.Ticker = b.Ticker ∧ strLt a.Metric b.Metric = false)))) := by
  unfold daxLess
  by_cases hy : a.Year = b.Year
  · rw [if_neg (by simp [hy])]
    by_cases ht : a.Ticker = b.Ticker
    · rw [if_neg (by simp [ht])]
      constructor
      · intro h
        exact Or.inr ⟨hy, Or.inr ⟨ht, h⟩⟩
      · rintro (h | ⟨-, h | ⟨-, h⟩⟩)
        · omega
        · rw [ht] at h
          rw [strLt_irrefl] at h
          cases h
        · exact h
    · rw [if_pos (by simp [ht])]
      constructor
      · intro h
        cases hba : strLt b.Ticker a.Ticker with
        | true => exact Or.inr ⟨hy, Or.inl rfl⟩
        | false => exact absurd (strLt_connex h hba) ht
      · rintro (h | ⟨-, h | ⟨htick, -⟩⟩)
        · omega
        · exact strLt_asymm h
        · exact absurd htick ht
  · rw [if_pos hy]
    constructor
    · intro h
      have := of_decide_eq_false h
      exact Or.inl (by omega)
    · rintro (h | ⟨hyy, -⟩)
      · exact decide_eq_false (by omega)
      · exact absurd hyy hy

theorem daxLess_asymm {a b : DAXRecord} (h : daxLess a b = true) :
    daxLess b a = false := by
  rw [daxLess_false_iff]
  unfold daxLess at h
  by_cases hy : a.Year = b.Year
  · rw [if_neg (by simp [hy])] at h
    by_cases ht : a.Ticker = b.Ticker
    · rw [if_neg (by simp [ht])] at h
      exact Or.inr ⟨hy.symm, Or.inr ⟨ht.symm, strLt_asymm h⟩⟩
    · rw [if_pos (by simp [ht])] at h
      exact Or.inr ⟨hy.symm, Or.inl h⟩
  · rw [if_pos hy] at h
    have := of_decide_eq_true h
    exact Or.inl (by omega)

theorem daxLess_false_trans {a b c : DAXRecord} (hab : daxLess b a = false)
    (hbc : daxLess c b = false) : daxLess c a = false := by
  rw [daxLess_false_iff] at hab hbc ⊢
  rcases hab with h1 | ⟨hy1, h1⟩
  · rcases hbc with h2 | ⟨hy2, h2⟩
    · exact Or.inl (by omega)
    · exact Or.inl (by omega)
  · rcases hbc with h2 | ⟨hy2, h2⟩
    · exact Or.inl (by omega)
    · refine Or.inr ⟨by omega, ?_⟩
      rcases h1 with ht1 | ⟨ht1, hm1⟩
      · rcases h2 with ht2 | ⟨ht2, hm2⟩
        · exact Or.inl (strLt_trans ht1 ht2)
        · rw [ht2]
          exact Or.inl ht1
      · rcases h2 with ht2 | ⟨ht2, hm2⟩
        · exact Or.inl (ht1 ▸ ht2)
        · exact Or.inr ⟨ht2.trans ht1, strLt_neg_trans hm1 hm2⟩

theorem daxLess_connex {a b : DAXRecord} (h1 : daxLess a b = false)
    (h2 : daxLess b a = false) :
    a.Year = b.Year ∧ a.Ticker = b.Ticker ∧ a.Metric = b.Metric := by
  rw [daxLess_false_iff] at h1 h2
  rcases h1 with hy1 | ⟨hy1, h1⟩
  · rcases h2 with hy2 | ⟨hy2, h2⟩
    · omega
    · omega
  · rcases h2 with hy2 | ⟨hy2, h2⟩
    · omega
    · refine ⟨hy1, ?_⟩
      rcases h1 with ht1 | ⟨ht1, hm1⟩
      · rcases h2 with ht2 | ⟨ht2, hm2⟩
        · have := strLt_asymm ht1
          rw [this] at ht2
          cases ht2
        · rw [ht2] at ht1
          rw [strLt_irrefl] at ht1
          cases ht1
      · rcases h2 with ht2 | ⟨ht2, hm2⟩
        · rw [ht1] at ht2
          rw [strLt_irrefl] at ht2
          cases ht2
        · exact ⟨ht1, strLt_connex hm1 hm2⟩

instance : IsTotal DAXRecord daxLE where
  total a b := by
    unfold daxLE
    cases h : daxLess b a with
    | false => exact Or.inl rfl
    | true => exact Or.inr (daxLess_asymm h)

instance : IsTrans DAXRecord daxLE where
  trans a b c hab hbc := daxLess_false_trans hab hbc

instance : IsAntisymm DAXRecord daxLT where
  antisymm a b h1 h2 := by
    unfold daxLT at h1 h2
    rw [daxLess_asymm h1] at h2
    cases h2

/-- `daxLE` coincides with the spec-side ordering. -/
theorem daxLE_iff_specLE (a b : DAXRecord) : daxLE a b ↔ specLE a b := by
  unfold daxLE specLE
  rw [daxLess_false_iff]
  constructor
  · rintro (h | ⟨hy, h | ⟨ht, hm⟩⟩)
    · exact Or.inl h
    · exact Or.inr ⟨hy.symm, Or.inl h⟩
    · exact Or.inr ⟨hy.symm, Or.inr ⟨ht.symm, hm⟩⟩
  · rintro (h | ⟨hy, h | ⟨ht, hm⟩⟩)
    · exact Or.inl h
    · exact Or.inr ⟨hy.symm, Or.inl h⟩
    · exact Or.inr ⟨hy.symm, Or.inr ⟨ht.symm, hm⟩⟩

/-! ## Import-pipeline lemmas -/

/-- A successfully parsed CSV row always carries a present `Value` (the
parser either parses a decimal or fails the row), a nil `ID` and zero
timestamps. -/
theorem parseCSVRow_ok_shape (row : List String) (rec : DAXRecord)
    (h : parseCSVRow row = .ok rec) :
    rec.Value.isSome ∧ rec.ID = 0 ∧ rec.CreatedAt = 0 := by
  unfold parseCSVRow at h
  split at h
  · exact absurd h (by simp)
  · split at h
    · exact absurd h (by simp)
    · split at h
      · exact absurd h (by simp)
      · rw [Except.ok.injEq] at h
        subst h
        exact ⟨rfl, rfl, rfl⟩

/-- Every record produced by the row loop has a present `Value`, nil `ID`
and zero `CreatedAt`. -/
theorem parseRows_shape (headerLen : Nat) (rows : List (List String)) :
    ∀ (rowNum : Nat) (records : List DAXRecord),
      parseRows headerLen rows rowNum = .ok records →
      ∀ r ∈ records, r.Value.isSome ∧ r.ID = 0 ∧ r.CreatedAt = 0 := by
  induction rows with
  | nil =>
    intro rowNum records h r hr
    unfold parseRows at h
    rw [Except.ok.injEq] at h
    subst h
    simp at hr
  | cons row rest ih =>
    intro rowNum records h r hr
    unfold parseRows at h
    split at h
    · exact absurd h (by simp)
    · rcases hrow : parseCSVRow row with e | rec
      · rw [hrow] at h
        exact absurd h (by simp)
      · rw [hrow] at h
        rcases htail : parseRows headerLen rest (rowNum + 1) with e | tail
        · rw [htail] at h
          exact absurd h (by simp)
        · rw [htail] at h
          rw [Except.ok.injEq] at h
          subst h
          rcases List.mem_cons.mp hr with h1 | h1
          · subst h1
            exact parseCSVRow_ok_shape row r hrow
          · exact ih (rowNum + 1) tail htail r h1

/-- The row loop is fail-fast: with every row of `good` acceptable and
`bad` not, the loop stops at `bad` with the row-indexed message of
`rowFailure`, counting 1-based data rows from `rowNum`. -/
theorem parseRows_append_error (headerLen : Nat) (good : List (List String))
    (bad : List String) (rest : List (List String)) :
    ∀ rowNum : Nat, (∀ r ∈ good, rowOk headerLen r) → ¬ rowOk headerLen bad →
      ∃ msg, rowFailure headerLen bad (rowNum + good.length) = some msg ∧
        parseRows headerLen (good ++ bad :: rest) rowNum = .error msg := by
  induction good with
  | nil =>
    intro rowNum _ hbad
    by_cases hlen : bad.length = headerLen
    · rcases hrec : parseCSVRow bad with e | rec
      · refine ⟨"invalid data at row " ++ toString rowNum ++ ": " ++ e, ?_, ?_⟩
        · simp [rowFailure, hlen, hrec]
        · simp [parseRows, hlen, hrec]
      · exact absurd ⟨hlen, rec, hrec⟩ hbad
    · refine ⟨"failed to read CSV row " ++ toString rowNum ++ ": record on line " ++
        toString (rowNum + 1) ++ ": wrong number of fields", ?_, ?_⟩
      · simp [rowFailure, hlen]
      · simp [parseRows, hlen]
  | cons g good' ih =>
    intro rowNum hgood hbad
    obtain ⟨hglen, grec, hgrec⟩ := hgood g (by simp)
    obtain ⟨msg, hmsg, hrec⟩ :=
      ih (rowNum + 1) (fun r hr => hgood r (by simp [hr])) hbad
    refine ⟨msg, ?_, ?_⟩
    · have hlen2 : rowNum + (g :: good').length = rowNum + 1 + good'.length := by
        rw [List.length_cons]
        omega
      rw [hlen2, hmsg]
    · rw [List.cons_append]
      unfold parseRows
      rw [if_neg (by simp [hglen]), hgrec, hrec]


/-! ## Claim C9 -/

/-- C9: a CSV consisting of a valid header row and zero data rows makes
`ImportCSV` fail with the `no records found` error, leaving the store and
the identifier counter untouched (`BulkUpsert` sits after this check in
`ImportCSV` and is never reached); moreover no successful import whatever
can report a record count of zero. -/
theorem C9_empty_csv_rejected (header : List String) (st : Store) (ctr : Nat)
    (hh : validateHeader header = .ok ()) :
    importCSV [header] st ctr = (.error "no records found in CSV", st, ctr) ∧
    ∀ (rows : List (List String)) (st0 : Store) (ctr0 : Nat)
      (resp : ImportResponse) (out : Store × Nat),
      importCSV rows st0 ctr0 = (.ok resp, out) → 0 < resp.RecordsImported := by
  constructor
  · simp [importCSV, hh, parseRows]
  · intro rows st0 ctr0 resp out h
    match rows with
    | [] => simp [importCSV] at h
    | header0 :: dataRows =>
      simp only [importCSV] at h
      split at h
      · simp at h
      · split at h
        · simp at h
        · split at h
          · simp at h
          · rename_i hne
            simp only [Prod.mk.injEq, Except.ok.injEq] at h
            rw [← h.1]
            exact Nat.pos_of_ne_zero hne

/-- Witness for C9 at the canonical header. -/
theorem C9_empty_csv_rejected_witness :
    importCSV [["company", "ticker", "report_type", "metric", "year", "value",
      "currency"]] [] 1 = (.error "no records found in CSV", [], 1) :=
  (C9_empty_csv_rejected
    ["company", "ticker", "report_type", "metric", "year", "value", "currency"]
    [] 1 (by rfl)).1

/-! ## Claim C10 -/

/-- C10: every record in the batch a successful `ImportCSV` hands to
`BulkUpsert` — the output of the row loop `parseRows` — carries a present
`Value`: although `DAXRecord.Value` is optional in the model, `parseCSVRow`
either parses a decimal for the row or fails the whole import. -/
theorem C10_imported_values_present (headerLen : Nat) (rows : List (List String))
    (rowNum : Nat) (records : List DAXRecord)
    (h : parseRows headerLen rows rowNum = .ok records) :
    ∀ r ∈ records, r.Value.isSome :=
  fun r hr => (parseRows_shape headerLen rows rowNum records h r hr).1

/-- Witness for C10 on a one-row batch. -/
theorem C10_imported_values_present_witness :
    parseRows 7 [["Siemens AG", "SIE", "income", "EBITDA", "2025", "1.5", "EUR"]] 1 =
      .ok [⟨0, "Siemens AG", "SIE", "income", "EBITDA", 2025, some "1.5", "EUR", 0, 0⟩] ∧
    (⟨0, "Siemens AG", "SIE", "income", "EBITDA", 2025, some "1.5", "EUR", 0, 0⟩ :
      DAXRecord).Value.isSome :=
  ⟨by rfl,
   C10_imported_values_present 7
     [["Siemens AG", "SIE", "income", "EBITDA", "2025", "1.5", "EUR"]] 1
     [⟨0, "Siemens AG", "SIE", "income", "EBITDA", 2025, some "1.5", "EUR", 0, 0⟩]
     (by rfl) _ (List.mem_singleton.mpr rfl)⟩

/-! ## Claim C3 -/

/-- C3 counterexample: for the exact scenario of the claim — file row 2
valid, file row 3 with year `"invalid"` — the import fails with a message
naming **row 2** (the 1-based index among data rows), not row 3 as the
claim demands; the store is left untouched. -/
theorem C3_row_number_counterexample :
    importCSV [["company", "ticker", "report_type", "metric", "year", "value", "currency"],
        ["Siemens AG", "SIE", "income", "EBITDA", "2025", "15859000000.0", "EUR"],
        ["Siemens AG", "SIE", "income", "Revenue", "invalid", "1000.0", "EUR"]] [] 1 =
      (.error "invalid data at row 2: invalid year", [], 1) ∧
    containsSub "row 3" "invalid data at row 2: invalid year" = false ∧
    containsSub "row 2" "invalid data at row 2: invalid year" = true :=
  ⟨by rfl, by decide, by decide⟩

/-- C3 (amended): on the first failing data row — wrong field count,
non-numeric year or non-numeric value — `ImportCSV` fails immediately with
the message computed by `rowFailure`, which names the row by its 1-based
index **among data rows** (`good.length + 1`; physical file row `n` is
thus reported as row `n - 1`, while the wrapped csv reader error of a
field-count failure additionally names the physical line), and the store
and counter are returned unchanged: no records are committed. -/
theorem C3_failfast_data_row_index (header : List String) (good : List (List String))
    (bad : List String) (rest : List (List String)) (st : Store) (ctr : Nat)
    (hh : validateHeader header = .ok ())
    (hgood : ∀ r ∈ good, rowOk header.length r)
    (hbad : ¬ rowOk header.length bad) :
    ∃ msg, rowFailure header.length bad (good.length + 1) = some msg ∧
      importCSV (header :: (good ++ bad :: rest)) st ctr = (.error msg, st, ctr) := by
  obtain ⟨msg, hmsg, hrec⟩ :=
    parseRows_append_error header.length good bad rest 1 hgood hbad
  rw [Nat.add_comm 1 good.length] at hmsg
  exact ⟨msg, hmsg, by simp [importCSV, hh, hrec]⟩

/-- Witness for the amended C3: one good data row, then a bad year. -/
theorem C3_failfast_data_row_index_witness :
    ∃ msg, rowFailure
        ["company", "ticker", "report_type", "metric", "year", "value", "currency"].length
        ["Siemens AG", "SIE", "income", "Revenue", "invalid", "1000.0", "EUR"] 2 = some msg ∧
      importCSV [["company", "ticker", "report_type", "metric", "year", "value", "currency"],
          ["Siemens AG", "SIE", "income", "EBITDA", "2025", "15859000000.0", "EUR"],
          ["Siemens AG", "SIE", "income", "Revenue", "invalid", "1000.0", "EUR"]] [] 5 =
        (.error msg, [], 5) :=
  C3_failfast_data_row_index
    ["company", "ticker", "report_type", "metric", "year", "value", "currency"]
    [["Siemens AG", "SIE", "income", "EBITDA", "2025", "15859000000.0", "EUR"]]
    ["Siemens AG", "SIE", "income", "Revenue", "invalid", "1000.0", "EUR"]
    [] [] 5 (by rfl)
    (by
      intro r hr
      rw [List.mem_singleton] at hr
      subst hr
      exact ⟨by rfl, _, rfl⟩)
    (by
      rintro ⟨-, rec, hrec⟩
      have he : parseCSVRow
          ["Siemens AG", "SIE", "income", "Revenue", "invalid", "1000.0", "EUR"] =
          .error "invalid year" := rfl
      rw [he] at hrec
      exact absurd hrec (by simp))

/-! ## Claim C5 -/

/-- C5 counterexample: the same table imported with its first two columns
transposed (header cells and data cells together — the second input is the
column permutation of the first, as the `map` equation states).  Both
imports succeed, but the permuted one stores `Company = "SIE"`: fields are
taken by fixed position, not from the column bearing the field's name, so
the two imports produce different stores. -/
theorem C5_column_permutation_counterexample :
    ([["ticker", "company", "report_type", "metric", "year", "value", "currency"],
      ["SIE", "Siemens AG", "income", "EBITDA", "2025", "1000.0", "EUR"]] =
      [["company", "ticker", "report_type", "metric", "year", "value", "currency"],
       ["Siemens AG", "SIE", "income", "EBITDA", "2025", "1000.0", "EUR"]].map
        (fun r => [r.getD 1 "", r.getD 0 ""] ++ r.drop 2)) ∧
    (importCSV [["company", "ticker", "report_type", "metric", "year", "value", "currency"],
        ["Siemens AG", "SIE", "income", "EBITDA", "2025", "1000.0", "EUR"]] [] 1).1.isOk = true ∧
    (importCSV [["ticker", "company", "report_type", "metric", "year", "value", "currency"],
        ["SIE", "Siemens AG", "income", "EBITDA", "2025", "1000.0", "EUR"]] [] 1).1.isOk = true ∧
    (importCSV [["company", "ticker", "report_type", "metric", "year", "value", "currency"],
        ["Siemens AG", "SIE", "income", "EBITDA", "2025", "1000.0", "EUR"]] [] 1).2.1.map
      (fun r => r.Company) = ["Siemens AG"] ∧
    (importCSV [["ticker", "company", "report_type", "metric", "year", "value", "currency"],
        ["SIE", "Siemens AG", "income", "EBITDA", "2025", "1000.0", "EUR"]] [] 1).2.1.map
      (fun r => r.Company) = ["SIE"] ∧
    (importCSV [["company", "ticker", "report_type", "metric", "year", "value", "currency"],
        ["Siemens AG", "SIE", "income", "EBITDA", "2025", "1000.0", "EUR"]] [] 1).2.1 ≠
    (importCSV [["ticker", "company", "report_type", "metric", "year", "value", "currency"],
        ["SIE", "Siemens AG", "income", "EBITDA", "2025", "1000.0", "EUR"]] [] 1).2.1 :=
  ⟨by decide, by decide, by decide, by decide, by decide, by decide⟩

/-- C5 (amended): the header is only validated for the **presence** of the
required column names (order- and case-insensitive); data rows are then
parsed by fixed position, ignoring the header entirely.  Hence two valid
headers of equal field count yield identical imports of the same data
rows — the header names never select columns. -/
theorem C5_header_names_ignored (h1 h2 : List String) (rows : List (List String))
    (st : Store) (ctr : Nat) (hv1 : validateHeader h1 = .ok ())
    (hv2 : validateHeader h2 = .ok ()) (hlen : h1.length = h2.length) :
    importCSV (h1 :: rows) st ctr = importCSV (h2 :: rows) st ctr := by
  simp only [importCSV]
  rw [hv1, hv2, hlen]

/-- Witness for the amended C5: canonical versus permuted upper-case header. -/
theorem C5_header_names_ignored_witness :
    importCSV [["company", "ticker", "report_type", "metric", "year", "value", "currency"],
        ["Siemens AG", "SIE", "income", "EBITDA", "2025", "1000.0", "EUR"]] [] 1 =
    importCSV [["YEAR", "VALUE", "CURRENCY", "COMPANY", "TICKER", "REPORT_TYPE", "METRIC"],
        ["Siemens AG", "SIE", "income", "EBITDA", "2025", "1000.0", "EUR"]] [] 1 :=
  C5_header_names_ignored
    ["company", "ticker", "report_type", "metric", "year", "value", "currency"]
    ["YEAR", "VALUE", "CURRENCY", "COMPANY", "TICKER", "REPORT_TYPE", "METRIC"]
    [["Siemens AG", "SIE", "income", "EBITDA", "2025", "1000.0", "EUR"]]
    [] 1 (by rfl) (by rfl) (by rfl)


/-! ## Natural-key lemmas -/

/-- `sameKey` holds exactly when the four key fields agree. -/
theorem sameKey_iff (a b : DAXRecord) : sameKey a b = true ↔ keyEqFields a b := by
  simp [sameKey, keyEqFields, and_assoc]

theorem sameKey_refl (a : DAXRecord) : sameKey a a = true := by
  simp [sameKey]

theorem sameKey_symm (a b : DAXRecord) : sameKey a b = sameKey b a := by
  by_cases h : sameKey a b = true
  · obtain ⟨h1, h2, h3, h4⟩ := (sameKey_iff a b).mp h
    rw [h, eq_comm, sameKey_iff]
    exact ⟨h1.symm, h2.symm, h3.symm, h4.symm⟩
  · rw [Bool.not_eq_true] at h
    rw [h, eq_comm, Bool.eq_false_iff]
    intro hba
    obtain ⟨h1, h2, h3, h4⟩ := (sameKey_iff b a).mp hba
    rw [Bool.eq_false_iff] at h
    exact h ((sameKey_iff a b).mpr ⟨h1.symm, h2.symm, h3.symm, h4.symm⟩)

/-- Records with equal key fields compare identically against any probe. -/
theorem sameKey_congr_left (a b : DAXRecord) (h : keyEqFields a b) (probe : DAXRecord) :
    sameKey a probe = sameKey b probe := by
  obtain ⟨h1, h2, h3, h4⟩ := h
  simp [sameKey, h1, h2, h3, h4]

theorem sameKey_congr_right (a b : DAXRecord) (h : keyEqFields a b) (probe : DAXRecord) :
    sameKey probe a = sameKey probe b := by
  rw [sameKey_symm, sameKey_symm probe b]
  exact sameKey_congr_left a b h probe

/-- `mergeInto` keeps the incoming record's key fields. -/
theorem keyEqFields_mergeInto (ex rec : DAXRecord) : keyEqFields (mergeInto ex rec) rec :=
  ⟨rfl, rfl, rfl, rfl⟩

/-- Setting the identifier keeps the key fields. -/
theorem keyEqFields_setID (rec : DAXRecord) (n : Nat) :
    keyEqFields { rec with ID := n } rec :=
  ⟨rfl, rfl, rfl, rfl⟩

/-! ## Generic list helpers -/

/-- `find?` commutes with a map that does not change the predicate. -/
theorem find?_map_pred_eq {α : Type} (f : α → α) (p : α → Bool) (l : List α)
    (h : ∀ e ∈ l, p (f e) = p e) :
    (l.map f).find? p = (l.find? p).map f := by
  induction l with
  | nil => rfl
  | cons a l ih =>
    have hfa := h a (by simp)
    have hl : ∀ e ∈ l, p (f e) = p e := fun e he => h e (by simp [he])
    cases hpa : p a with
    | false =>
      rw [hpa] at hfa
      simpa [hfa, hpa] using ih hl
    | true =>
      rw [hpa] at hfa
      simp [hfa, hpa]

/-- Two stored records with the same identifier are the same record. -/
theorem eq_of_mem_of_ID_eq (st : Store) (hID : IDUnique st) (a b : DAXRecord)
    (ha : a ∈ st) (hb : b ∈ st) (h : a.ID = b.ID) : a = b := by
  by_contra hne
  exact (hID.forall (by intro x y hxy; exact hxy.symm) ha hb hne) h


/-! ## mapInsert and upsertOne lemmas -/

/-- Assignment under a fresh map key appends. -/
theorem mapInsert_of_fresh (st : Store) (rec : DAXRecord)
    (h : ∀ e ∈ st, e.ID ≠ rec.ID) : mapInsert st rec = st ++ [rec] := by
  unfold mapInsert
  rw [if_neg]
  simp only [List.any_eq_true, beq_iff_eq, not_exists, not_and]
  exact h

/-- Assignment under a present map key replaces in place. -/
theorem mapInsert_of_present (st : Store) (rec ex : DAXRecord)
    (hex : ex ∈ st) (hid : ex.ID = rec.ID) :
    mapInsert st rec = st.map (fun e => if e.ID == rec.ID then rec else e) := by
  unfold mapInsert
  rw [if_pos]
  simp only [List.any_eq_true, beq_iff_eq]
  exact ⟨ex, hex, hid⟩

/-- `upsertOne` on a natural-key hit: the matched entry is overwritten in
place with the merged record; the counter advances iff the incoming
identifier was nil (`uuid.New()` is called before the scan). -/
theorem upsertOne_hit (st : Store) (ctr : Nat) (r ex : DAXRecord)
    (hID : IDUnique st) (hfind : lookupKey st r = some ex) :
    upsertOne st ctr r =
      (st.map (fun e => if e.ID == ex.ID then mergeInto ex r else e),
       if r.ID = 0 then ctr + 1 else ctr) := by
  have hmem : ex ∈ st := List.mem_of_find?_eq_some hfind
  have hfind' : ∀ (r1 : DAXRecord), keyEqFields r1 r →
      st.find? (fun e => sameKey e r1) = some ex := by
    intro r1 hk
    rw [show (fun e => sameKey e r1) = (fun e => sameKey e r) from
      funext (fun e => sameKey_congr_right r1 r hk e)]
    exact hfind
  by_cases h0 : r.ID = 0
  · simp only [upsertOne, if_pos h0]
    rw [hfind' { r with ID := ctr } (keyEqFields_setID r ctr)]
    show (mapInsert st (mergeInto ex r), ctr + 1) = _
    rw [mapInsert_of_present st (mergeInto ex r) ex hmem rfl]
    rfl
  · simp only [upsertOne, if_neg h0]
    rw [hfind' r ⟨rfl, rfl, rfl, rfl⟩]
    show (mapInsert st (mergeInto ex r), ctr) = _
    rw [mapInsert_of_present st (mergeInto ex r) ex hmem rfl]
    rfl

/-- `upsertOne` on a miss with a nil identifier and a fresh counter:
append the record under the fresh identifier. -/
theorem upsertOne_miss (st : Store) (ctr : Nat) (r : DAXRecord)
    (hfind : lookupKey st r = none) (h0 : r.ID = 0) (hB : IDsBelow st ctr) :
    upsertOne st ctr r = (st ++ [{ r with ID := ctr }], ctr + 1) := by
  have hfind' : st.find? (fun e => sameKey e { r with ID := ctr }) = none := by
    rw [show (fun e => sameKey e { r with ID := ctr }) = (fun e => sameKey e r) from
      funext (fun e => sameKey_congr_right _ r (keyEqFields_setID r ctr) e)]
    exact hfind
  simp only [upsertOne, if_pos h0]
  rw [hfind']
  show (mapInsert st { r with ID := ctr }, ctr + 1) = _
  rw [mapInsert_of_fresh]
  intro e he
  exact Nat.ne_of_lt (hB e he)


theorem keyEqFields_symm {a b : DAXRecord} (h : keyEqFields a b) : keyEqFields b a :=
  ⟨h.1.symm, h.2.1.symm, h.2.2.1.symm, h.2.2.2.symm⟩

theorem keyEqFields_trans {a b c : DAXRecord} (h1 : keyEqFields a b)
    (h2 : keyEqFields b c) : keyEqFields a c :=
  ⟨h1.1.trans h2.1, h1.2.1.trans h2.2.1, h1.2.2.1.trans h2.2.2.1, h1.2.2.2.trans h2.2.2.2⟩

theorem lookupKey_sameKey {st : Store} {probe e : DAXRecord}
    (h : lookupKey st probe = some e) : sameKey e probe = true := by
  unfold lookupKey at h
  have h2 := List.find?_some h
  exact h2

theorem lookupKey_mem {st : Store} {probe e : DAXRecord}
    (h : lookupKey st probe = some e) : e ∈ st := by
  unfold lookupKey at h
  exact List.mem_of_find?_eq_some h

theorem lookupKey_none_all {st : Store} {probe : DAXRecord}
    (h : lookupKey st probe = none) : ∀ e ∈ st, sameKey e probe = false := by
  unfold lookupKey at h
  intro e he
  exact Bool.eq_false_iff.mpr (List.find?_eq_none.mp h e he)

/-- After a hit, every key lookup is the old lookup with the in-place
overwrite applied. -/
theorem lookupKey_upsertOne_hit (st : Store) (ctr : Nat) (r ex probe : DAXRecord)
    (hID : IDUnique st) (hfind : lookupKey st r = some ex) :
    lookupKey (upsertOne st ctr r).1 probe =
      (lookupKey st probe).map
        (fun e => if e.ID == ex.ID then mergeInto ex r else e) := by
  have hmem : ex ∈ st := lookupKey_mem hfind
  have hexr : keyEqFields ex r := (sameKey_iff ex r).mp (lookupKey_sameKey hfind)
  rw [upsertOne_hit st ctr r ex hID hfind]
  unfold lookupKey
  refine find?_map_pred_eq _ _ st ?_
  intro e he
  by_cases hid : e.ID = ex.ID
  · have he2 : e = ex := eq_of_mem_of_ID_eq st hID e ex he hmem hid
    subst he2
    rw [if_pos (by simp [hid])]
    rw [sameKey_congr_left (mergeInto e r) e
      (keyEqFields_trans (keyEqFields_mergeInto e r) (keyEqFields_symm hexr)) probe]
  · rw [if_neg (by simp [hid])]

/-- After a miss, a key lookup falls through to the appended record. -/
theorem lookupKey_upsertOne_miss (st : Store) (ctr : Nat) (r probe : DAXRecord)
    (hfind : lookupKey st r = none) (h0 : r.ID = 0) (hB : IDsBelow st ctr) :
    lookupKey (upsertOne st ctr r).1 probe =
      (lookupKey st probe).or
        (if sameKey r probe = true then some { r with ID := ctr } else none) := by
  rw [upsertOne_miss st ctr r hfind h0 hB]
  have hkey : sameKey { r with ID := ctr } probe = sameKey r probe :=
    sameKey_congr_left _ r (keyEqFields_setID r ctr) probe
  cases hk : sameKey r probe with
  | true =>
    rw [hk] at hkey
    simp [lookupKey, List.find?_append, List.find?, hkey]
  | false =>
    rw [hk] at hkey
    simp [lookupKey, List.find?_append, List.find?, hkey]

/-- `upsertOne` preserves the store invariants; the counter never
decreases. -/
theorem upsertOne_preserves (st : Store) (ctr : Nat) (r : DAXRecord) (h0 : r.ID = 0)
    (hKU : KeyUnique st) (hID : IDUnique st) (hB : IDsBelow st ctr) :
    KeyUnique (upsertOne st ctr r).1 ∧ IDUnique (upsertOne st ctr r).1 ∧
      IDsBelow (upsertOne st ctr r).1 (upsertOne st ctr r).2 ∧
      ctr ≤ (upsertOne st ctr r).2 := by
  rcases hfind : lookupKey st r with _ | ex
  · rw [upsertOne_miss st ctr r hfind h0 hB]
    have hnone : ∀ e ∈ st, sameKey e r = false := lookupKey_none_all hfind
    refine ⟨?_, ?_, ?_, by simp⟩
    · unfold KeyUnique at hKU ⊢
      rw [List.pairwise_append]
      refine ⟨hKU, by simp, ?_⟩
      intro a ha b hb
      rw [List.mem_singleton] at hb
      subst hb
      rw [sameKey_congr_right _ r (keyEqFields_setID r ctr) a]
      exact hnone a ha
    · unfold IDUnique at hID ⊢
      rw [List.pairwise_append]
      refine ⟨hID, by simp, ?_⟩
      intro a ha b hb
      rw [List.mem_singleton] at hb
      subst hb
      exact Nat.ne_of_lt (hB a ha)
    · intro e he
      rcases List.mem_append.mp he with h1 | h1
      · exact Nat.lt_succ_of_lt (hB e h1)
      · rw [List.mem_singleton] at h1
        subst h1
        exact Nat.lt_succ_self ctr
  · have hmem : ex ∈ st := lookupKey_mem hfind
    have hexr : keyEqFields ex r := (sameKey_iff ex r).mp (lookupKey_sameKey hfind)
    rw [upsertOne_hit st ctr r ex hID hfind]
    have hpt : ∀ e ∈ st,
        keyEqFields (if e.ID == ex.ID then mergeInto ex r else e) e ∧
        (if e.ID == ex.ID then mergeInto ex r else e).ID = e.ID := by
      intro e he
      by_cases hid : e.ID = ex.ID
      · have he2 : e = ex := eq_of_mem_of_ID_eq st hID e ex he hmem hid
        subst he2
        rw [if_pos (by simp [hid])]
        exact ⟨keyEqFields_trans (keyEqFields_mergeInto e r) (keyEqFields_symm hexr),
          rfl⟩
      · rw [if_neg (by simp [hid])]
        exact ⟨⟨rfl, rfl, rfl, rfl⟩, rfl⟩
    refine ⟨?_, ?_, ?_, ?_⟩
    · unfold KeyUnique at hKU ⊢
      rw [List.pairwise_map]
      refine hKU.imp_of_mem ?_
      intro a b ha hb hab
      rw [sameKey_congr_left _ a (hpt a ha).1 _,
        sameKey_congr_right _ b (hpt b hb).1 a]
      exact hab
    · unfold IDUnique at hID ⊢
      rw [List.pairwise_map]
      refine hID.imp_of_mem ?_
      intro a b ha hb hab
      rw [(hpt a ha).2, (hpt b hb).2]
      exact hab
    · intro e he
      rw [List.mem_map] at he
      obtain ⟨a, ha, hae⟩ := he
      rw [← hae, (hpt a ha).2]
      have := hB a ha
      split <;> omega
    · split <;> omega


/-! ## Fold-level bulkUpsert lemmas -/

theorem bulkUpsert_cons (st : Store) (ctr : Nat) (r : DAXRecord) (rs : List DAXRecord) :
    bulkUpsert st ctr (r :: rs) =
      bulkUpsert (upsertOne st ctr r).1 (upsertOne st ctr r).2 rs := rfl

/-- `BulkUpsert` preserves the store invariants (given nil incoming
identifiers and a fresh counter); the counter never decreases. -/
theorem bulkUpsert_preserves (records : List DAXRecord) :
    ∀ (st : Store) (ctr : Nat), (∀ r ∈ records, r.ID = 0) →
      KeyUnique st → IDUnique st → IDsBelow st ctr →
      KeyUnique (bulkUpsert st ctr records).1 ∧
        IDUnique (bulkUpsert st ctr records).1 ∧
        IDsBelow (bulkUpsert st ctr records).1 (bulkUpsert st ctr records).2 ∧
        ctr ≤ (bulkUpsert st ctr records).2 := by
  induction records with
  | nil =>
    intro st ctr _ hKU hID hB
    exact ⟨hKU, hID, hB, Nat.le_refl ctr⟩
  | cons r rs ih =>
    intro st ctr h0 hKU hID hB
    obtain ⟨hKU1, hID1, hB1, hle1⟩ :=
      upsertOne_preserves st ctr r (h0 r (by simp)) hKU hID hB
    rw [bulkUpsert_cons]
    obtain ⟨a, b, c, d⟩ := ih (upsertOne st ctr r).1 (upsertOne st ctr r).2
      (fun x hx => h0 x (by simp [hx])) hKU1 hID1 hB1
    exact ⟨a, b, c, Nat.le_trans hle1 d⟩

/-- The per-key characterisation of `BulkUpsert`: a key not occurring in
the batch keeps its old lookup, and a key occurring in the batch ends up
with the **last** batch record for that key (last-write-wins), with the
identifier and creation time of the previously stored record — when one
existed — retained. -/
theorem bulkUpsert_lookup (records : List DAXRecord) :
    ∀ (st : Store) (ctr : Nat) (probe : DAXRecord),
      (∀ r ∈ records, r.ID = 0) → KeyUnique st → IDUnique st → IDsBelow st ctr →
      (records.filter (fun r => sameKey r probe) = [] →
        lookupKey (bulkUpsert st ctr records).1 probe = lookupKey st probe) ∧
      (∀ last, (records.filter (fun r => sameKey r probe)).getLast? = some last →
        ∃ e', lookupKey (bulkUpsert st ctr records).1 probe = some e' ∧
          keyEqFields e' last ∧
          e'.ReportType = last.ReportType ∧ e'.Value = last.Value ∧
          e'.Currency = last.Currency ∧ e'.UpdatedAt = last.UpdatedAt ∧
          ∀ ex, lookupKey st probe = some ex →
            e'.ID = ex.ID ∧ e'.CreatedAt = ex.CreatedAt) := by
  induction records with
  | nil =>
    intro st ctr probe _ _ _ _
    exact ⟨fun _ => rfl, fun last hlast => by simp at hlast⟩
  | cons r rs ih =>
    intro st ctr probe h0 hKU hID hB
    have hr0 : r.ID = 0 := h0 r (by simp)
    obtain ⟨hKU1, hID1, hB1, -⟩ := upsertOne_preserves st ctr r hr0 hKU hID hB
    have ih1 := ih (upsertOne st ctr r).1 (upsertOne st ctr r).2 probe
      (fun x hx => h0 x (by simp [hx])) hKU1 hID1 hB1
    cases hk : sameKey r probe with
    | false =>
      have hfil : (r :: rs).filter (fun x => sameKey x probe) =
          rs.filter (fun x => sameKey x probe) :=
        List.filter_cons_of_neg (by simp [hk])
      have hstep : lookupKey (upsertOne st ctr r).1 probe = lookupKey st probe := by
        rcases hfind : lookupKey st r with _ | ex
        · rw [lookupKey_upsertOne_miss st ctr r probe hfind hr0 hB, hk]
          simp
        · rw [lookupKey_upsertOne_hit st ctr r ex probe hID hfind]
          rcases hp : lookupKey st probe with _ | e0
          · rfl
          · have hmem0 : e0 ∈ st := lookupKey_mem hp
            have hmemx : ex ∈ st := lookupKey_mem hfind
            have hne : e0.ID ≠ ex.ID := by
              intro hidq
              have he0x : e0 = ex := eq_of_mem_of_ID_eq st hID e0 ex hmem0 hmemx hidq
              have h1 : sameKey e0 probe = true := lookupKey_sameKey hp
              have hexr : keyEqFields ex r := (sameKey_iff ex r).mp (lookupKey_sameKey hfind)
              rw [he0x, sameKey_congr_left ex r hexr probe, hk] at h1
              exact Bool.false_ne_true h1
            simp [hne]
      rw [bulkUpsert_cons, hfil]
      refine ⟨fun hnil => ?_, fun last hlast => ?_⟩
      · rw [ih1.1 hnil, hstep]
      · obtain ⟨e', he', hkey, h1, h2, h3, h4, hidc⟩ := ih1.2 last hlast
        exact ⟨e', he', hkey, h1, h2, h3, h4, fun ex hex => hidc ex (by rw [hstep]; exact hex)⟩
    | true =>
      have hkeyrp : keyEqFields r probe := (sameKey_iff r probe).mp hk
      have hlookup_eq : lookupKey st r = lookupKey st probe := by
        unfold lookupKey
        rw [show (fun e => sameKey e r) = (fun e => sameKey e probe) from
          funext (fun e => sameKey_congr_right r probe hkeyrp e)]
      have hfil : (r :: rs).filter (fun x => sameKey x probe) =
          r :: rs.filter (fun x => sameKey x probe) :=
        List.filter_cons_of_pos (by simp [hk])
      rw [bulkUpsert_cons, hfil]
      rcases hfind : lookupKey st probe with _ | ex
      · -- no previous record for this key: the step appends it fresh
        have hfindr : lookupKey st r = none := by rw [hlookup_eq, hfind]
        have hstep : lookupKey (upsertOne st ctr r).1 probe =
            some { r with ID := ctr } := by
          rw [lookupKey_upsertOne_miss st ctr r probe hfindr hr0 hB, hfind, hk]
          simp
        refine ⟨fun hnil => by simp at hnil, fun last hlast => ?_⟩
        rcases hfil2 : rs.filter (fun x => sameKey x probe) with _ | ⟨f1, fs⟩
        · rw [hfil2] at hlast
          simp only [List.getLast?_singleton, Option.some.injEq] at hlast
          subst hlast
          rw [ih1.1 hfil2, hstep]
          exact ⟨{ r with ID := ctr }, rfl, keyEqFields_setID r ctr, rfl, rfl, rfl, rfl,
            fun ex hex => nomatch hex⟩
        · rw [hfil2] at hlast
          rw [List.getLast?_cons_cons] at hlast
          obtain ⟨e', he', hkey, h1, h2, h3, h4, -⟩ := ih1.2 last (by rw [hfil2]; exact hlast)
          exact ⟨e', he', hkey, h1, h2, h3, h4,
            fun ex hex => nomatch hex⟩
      · -- a previous record exists: the step merges in place
        have hfindr : lookupKey st r = some ex := by rw [hlookup_eq, hfind]
        have hstep : lookupKey (upsertOne st ctr r).1 probe =
            some (mergeInto ex r) := by
          rw [lookupKey_upsertOne_hit st ctr r ex probe hID hfindr, hfind]
          simp
        refine ⟨fun hnil => by simp at hnil, fun last hlast => ?_⟩
        rcases hfil2 : rs.filter (fun x => sameKey x probe) with _ | ⟨f1, fs⟩
        · rw [hfil2] at hlast
          simp only [List.getLast?_singleton, Option.some.injEq] at hlast
          subst hlast
          rw [ih1.1 hfil2, hstep]
          refine ⟨mergeInto ex r, rfl, keyEqFields_mergeInto ex r, rfl, rfl, rfl, rfl,
            fun ex0 hex0 => ?_⟩
          rw [Option.some.injEq] at hex0
          subst hex0
          exact ⟨rfl, rfl⟩
        · rw [hfil2] at hlast
          rw [List.getLast?_cons_cons] at hlast
          obtain ⟨e', he', hkey, h1, h2, h3, h4, hidc⟩ := ih1.2 last (by rw [hfil2]; exact hlast)
          obtain ⟨hida, hidb⟩ := hidc (mergeInto ex r) hstep
          refine ⟨e', he', hkey, h1, h2, h3, h4, fun ex0 hex0 => ?_⟩
          rw [Option.some.injEq] at hex0
          subst hex0
          exact ⟨hida, hidb⟩

/-- When every batch key is already present, `BulkUpsert` only overwrites
in place and the record count is unchanged. -/
theorem bulkUpsert_length (records : List DAXRecord) :
    ∀ (st : Store) (ctr : Nat), (∀ r ∈ records, r.ID = 0) →
      KeyUnique st → IDUnique st → IDsBelow st ctr →
      (∀ r ∈ records, (lookupKey st r).isSome) →
      (bulkUpsert st ctr records).1.length = st.length := by
  induction records with
  | nil => intro st ctr _ _ _ _ _; rfl
  | cons r rs ih =>
    intro st ctr h0 hKU hID hB hsome
    have hr0 : r.ID = 0 := h0 r (by simp)
    obtain ⟨ex, hfind⟩ := Option.isSome_iff_exists.mp (hsome r (by simp))
    obtain ⟨hKU1, hID1, hB1, -⟩ := upsertOne_preserves st ctr r hr0 hKU hID hB
    have hlen1 : (upsertOne st ctr r).1.length = st.length := by
      rw [upsertOne_hit st ctr r ex hID hfind]
      exact List.length_map st _
    have hsome1 : ∀ x ∈ rs, (lookupKey (upsertOne st ctr r).1 x).isSome := by
      intro x hx
      rw [lookupKey_upsertOne_hit st ctr r ex x hID hfind]
      have hs := hsome x (by simp [hx])
      rcases hpx : lookupKey st x with _ | e0
      · rw [hpx] at hs
        cases hs
      · simp
    rw [bulkUpsert_cons,
      ih (upsertOne st ctr r).1 (upsertOne st ctr r).2
        (fun x hx => h0 x (by simp [hx])) hKU1 hID1 hB1 hsome1, hlen1]

/-- Under the natural-key invariant, a successful lookup means exactly one
stored record has that key. -/
theorem countP_sameKey_eq_one (st : Store) :
    ∀ (probe e' : DAXRecord), KeyUnique st → lookupKey st probe = some e' →
      st.countP (fun e => sameKey e probe) = 1 := by
  induction st with
  | nil =>
    intro probe e' _ h
    simp [lookupKey] at h
  | cons a l ih =>
    intro probe e' hKU hfind
    have hKUl : KeyUnique l := (List.pairwise_cons.mp hKU).2
    have hhead : ∀ b ∈ l, sameKey a b = false := (List.pairwise_cons.mp hKU).1
    cases hk : sameKey a probe with
    | true =>
      rw [List.countP_cons]
      have hzero : l.countP (fun e => sameKey e probe) = 0 := by
        rw [List.countP_eq_zero]
        intro b hb hb2
        have hkey : keyEqFields a probe := (sameKey_iff a probe).mp hk
        have h1 : sameKey b a = sameKey b probe :=
          sameKey_congr_right a probe hkey b
        rw [← h1, sameKey_symm, hhead b hb] at hb2
        cases hb2
      rw [hzero]
      simp [hk]
    | false =>
      rw [List.countP_cons]
      have hle : lookupKey l probe = some e' := by
        unfold lookupKey at hfind ⊢
        rwa [List.find?_cons_of_neg l (by simp [hk])] at hfind
      rw [ih probe e' hKUl hle]
      simp [hk]


/-! ## ImportCSV success inversion -/

/-- Forward computation of a successful import. -/
theorem importCSV_build (header : List String) (dataRows : List (List String))
    (records : List DAXRecord) (st : Store) (ctr : Nat)
    (hv : validateHeader header = .ok ())
    (hp : parseRows header.length dataRows 1 = .ok records)
    (hne : records ≠ []) :
    importCSV (header :: dataRows) st ctr =
      (.ok ⟨records.length,
        "Successfully imported " ++ toString records.length ++ " records"⟩,
       (bulkUpsert st ctr records).1, (bulkUpsert st ctr records).2) := by
  simp only [importCSV, hv, hp]
  rw [if_neg (by simp [hne])]

/-- Inversion of a successful import: the input had a valid header, every
data row parsed, at least one record resulted, and the final state is the
single `BulkUpsert` of the parsed batch. -/
theorem importCSV_ok_inv (rows : List (List String)) (st : Store) (ctr : Nat)
    (resp : ImportResponse) (st' : Store) (ctr' : Nat)
    (h : importCSV rows st ctr = (.ok resp, st', ctr')) :
    ∃ header dataRows records, rows = header :: dataRows ∧
      validateHeader header = .ok () ∧
      parseRows header.length dataRows 1 = .ok records ∧
      records ≠ [] ∧
      bulkUpsert st ctr records = (st', ctr') ∧
      resp = ⟨records.length,
        "Successfully imported " ++ toString records.length ++ " records"⟩ := by
  match rows with
  | [] => simp [importCSV] at h
  | header :: dataRows =>
    simp only [importCSV] at h
    split at h
    · exact absurd h (by simp)
    · rename_i u hv
      cases u
      split at h
      · exact absurd h (by simp)
      · rename_i records hp
        split at h
        · exact absurd h (by simp)
        · rename_i hne
          simp only [Prod.mk.injEq, Except.ok.injEq] at h
          obtain ⟨hresp, hst, hctr⟩ := h
          refine ⟨header, dataRows, records, rfl, hv, hp, ?_, ?_, hresp.symm⟩
          · intro hnil
            exact hne (by rw [hnil]; rfl)
          · rw [← hst, ← hctr]

/-! ## Claim C1 -/

/-- C1: resubmitting an existing natural key through `BulkUpsert` leaves
exactly one stored record for that key; its mutable fields (ReportType,
Value, Currency, UpdatedAt) equal those of the (last) submitted record
with that key, while the surrogate identifier and CreatedAt of the
previously stored record are retained.  Hypotheses: the store satisfies
its invariants, the identifier counter is fresh, and the submitted
records carry nil identifiers — as every caller in the repository does. -/
theorem C1_bulkUpsert_updates_in_place (st : Store) (ctr : Nat)
    (records : List DAXRecord) (probe ex last : DAXRecord)
    (h0 : ∀ r ∈ records, r.ID = 0)
    (hKU : KeyUnique st) (hID : IDUnique st) (hB : IDsBelow st ctr)
    (hex : lookupKey st probe = some ex)
    (hlast : (records.filter (fun r => sameKey r probe)).getLast? = some last) :
    ∃ e', lookupKey (bulkUpsert st ctr records).1 probe = some e' ∧
      e'.ID = ex.ID ∧ e'.CreatedAt = ex.CreatedAt ∧
      e'.ReportType = last.ReportType ∧ e'.Value = last.Value ∧
      e'.Currency = last.Currency ∧ e'.UpdatedAt = last.UpdatedAt ∧
      (bulkUpsert st ctr records).1.countP (fun e => sameKey e probe) = 1 := by
  obtain ⟨-, hchar⟩ := bulkUpsert_lookup records st ctr probe h0 hKU hID hB
  obtain ⟨e', he', hkey, h1, h2, h3, h4, hidc⟩ := hchar last hlast
  obtain ⟨hKU2, -, -, -⟩ := bulkUpsert_preserves records st ctr h0 hKU hID hB
  obtain ⟨hia, hib⟩ := hidc ex hex
  exact ⟨e', he', hia, hib, h1, h2, h3, h4,
    countP_sameKey_eq_one _ probe e' hKU2 he'⟩

/-- Witness for C1: a one-record store hit by a one-record batch with the
same natural key but a new value. -/
theorem C1_bulkUpsert_updates_in_place_witness :
    ∃ e', lookupKey (bulkUpsert
        [⟨7, "Siemens AG", "SIE", "income", "EBITDA", 2025, some "15000000000.0", "EUR", 3, 4⟩]
        10
        [⟨0, "Siemens AG", "SIE", "quarterly", "EBITDA", 2025, some "15859000000.0", "EUR", 0, 0⟩]).1
        ⟨7, "Siemens AG", "SIE", "income", "EBITDA", 2025, some "15000000000.0", "EUR", 3, 4⟩ = some e' ∧
      e'.ID = 7 ∧ e'.CreatedAt = 3 ∧
      e'.ReportType = "quarterly" ∧ e'.Value = some "15859000000.0" ∧
      e'.Currency = "EUR" ∧ e'.UpdatedAt = 0 ∧
      (bulkUpsert
        [⟨7, "Siemens AG", "SIE", "income", "EBITDA", 2025, some "15000000000.0", "EUR", 3, 4⟩]
        10
        [⟨0, "Siemens AG", "SIE", "quarterly", "EBITDA", 2025, some "15859000000.0", "EUR", 0, 0⟩]).1.countP
        (fun e => sameKey e
          ⟨7, "Siemens AG", "SIE", "income", "EBITDA", 2025, some "15000000000.0", "EUR", 3, 4⟩) = 1 :=
  C1_bulkUpsert_updates_in_place
    [⟨7, "Siemens AG", "SIE", "income", "EBITDA", 2025, some "15000000000.0", "EUR", 3, 4⟩]
    10
    [⟨0, "Siemens AG", "SIE", "quarterly", "EBITDA", 2025, some "15859000000.0", "EUR", 0, 0⟩]
    ⟨7, "Siemens AG", "SIE", "income", "EBITDA", 2025, some "15000000000.0", "EUR", 3, 4⟩
    ⟨7, "Siemens AG", "SIE", "income", "EBITDA", 2025, some "15000000000.0", "EUR", 3, 4⟩
    ⟨0, "Siemens AG", "SIE", "quarterly", "EBITDA", 2025, some "15859000000.0", "EUR", 0, 0⟩
    (by decide) (by decide) (by decide) (by decide) (by rfl) (by rfl)

/-! ## Claim C2 -/

/-- C2 counterexample: `Create` performs no natural-key check, so two
`Create` calls with the same natural key (and nil identifiers) leave two
stored records for that key, violating the at-most-one invariant; the same
two submissions through `BulkUpsert` leave exactly one. -/
theorem C2_create_violates_key_invariant :
    ((create (create [] 1
        ⟨0, "Siemens AG", "SIE", "income", "EBITDA", 2025, some "1.0", "EUR", 0, 0⟩).1
        (create [] 1
          ⟨0, "Siemens AG", "SIE", "income", "EBITDA", 2025, some "1.0", "EUR", 0, 0⟩).2
        ⟨0, "Siemens AG", "SIE", "income", "EBITDA", 2025, some "1.0", "EUR", 0, 0⟩).1.countP
      (fun e => sameKey e
        ⟨0, "Siemens AG", "SIE", "income", "EBITDA", 2025, some "1.0", "EUR", 0, 0⟩) = 2) ∧
    ¬ KeyUnique (create (create [] 1
        ⟨0, "Siemens AG", "SIE", "income", "EBITDA", 2025, some "1.0", "EUR", 0, 0⟩).1
        (create [] 1
          ⟨0, "Siemens AG", "SIE", "income", "EBITDA", 2025, some "1.0", "EUR", 0, 0⟩).2
        ⟨0, "Siemens AG", "SIE", "income", "EBITDA", 2025, some "1.0", "EUR", 0, 0⟩).1 ∧
    ((bulkUpsert (bulkUpsert [] 1
        [⟨0, "Siemens AG", "SIE", "income", "EBITDA", 2025, some "1.0", "EUR", 0, 0⟩]).1
        (bulkUpsert [] 1
          [⟨0, "Siemens AG", "SIE", "income", "EBITDA", 2025, some "1.0", "EUR", 0, 0⟩]).2
        [⟨0, "Siemens AG", "SIE", "income", "EBITDA", 2025, some "1.0", "EUR", 0, 0⟩]).1.countP
      (fun e => sameKey e
        ⟨0, "Siemens AG", "SIE", "income", "EBITDA", 2025, some "1.0", "EUR", 0, 0⟩) = 1) := by
  refine ⟨by decide, ?_, by decide⟩
  intro h
  have h2 := (List.pairwise_cons.mp h).1
  have h3 := h2 ⟨2, "Siemens AG", "SIE", "income", "EBITDA", 2025, some "1.0", "EUR", 0, 0⟩
    (by decide)
  exact absurd h3 (by decide)

/-- C2 (amended): `BulkUpsert` preserves the natural-key invariant (along
with identifier uniqueness and counter freshness) for batches of
nil-identifier records, and the read operations and `DeleteAll` trivially
cannot violate it; but `Create` does not check the natural key, so the
invariant holds only for histories whose writes go through `BulkUpsert`
(see the counterexample for `Create`). -/
theorem C2_bulkUpsert_preserves_key_invariant (records : List DAXRecord)
    (st : Store) (ctr : Nat) (h0 : ∀ r ∈ records, r.ID = 0)
    (hKU : KeyUnique st) (hID : IDUnique st) (hB : IDsBelow st ctr) :
    KeyUnique (bulkUpsert st ctr records).1 ∧
      IDUnique (bulkUpsert st ctr records).1 ∧
      IDsBelow (bulkUpsert st ctr records).1 (bulkUpsert st ctr records).2 := by
  obtain ⟨a, b, c, -⟩ := bulkUpsert_preserves records st ctr h0 hKU hID hB
  exact ⟨a, b, c⟩

/-- Witness for the amended C2 on a two-record batch against a one-record
store. -/
theorem C2_bulkUpsert_preserves_key_invariant_witness :
    KeyUnique (bulkUpsert
        [⟨3, "SAP SE", "SAP", "income", "Revenue", 2024, some "2.0", "EUR", 0, 0⟩] 5
        [⟨0, "Siemens AG", "SIE", "income", "EBITDA", 2025, some "1.0", "EUR", 0, 0⟩,
         ⟨0, "SAP SE", "SAP", "income", "Revenue", 2024, some "9.0", "EUR", 0, 0⟩]).1 ∧
      IDUnique (bulkUpsert
        [⟨3, "SAP SE", "SAP", "income", "Revenue", 2024, some "2.0", "EUR", 0, 0⟩] 5
        [⟨0, "Siemens AG", "SIE", "income", "EBITDA", 2025, some "1.0", "EUR", 0, 0⟩,
         ⟨0, "SAP SE", "SAP", "income", "Revenue", 2024, some "9.0", "EUR", 0, 0⟩]).1 ∧
      IDsBelow (bulkUpsert
        [⟨3, "SAP SE", "SAP", "income", "Revenue", 2024, some "2.0", "EUR", 0, 0⟩] 5
        [⟨0, "Siemens AG", "SIE", "income", "EBITDA", 2025, some "1.0", "EUR", 0, 0⟩,
         ⟨0, "SAP SE", "SAP", "income", "Revenue", 2024, some "9.0", "EUR", 0, 0⟩]).1
        (bulkUpsert
        [⟨3, "SAP SE", "SAP", "income", "Revenue", 2024, some "2.0", "EUR", 0, 0⟩] 5
        [⟨0, "Siemens AG", "SIE", "income", "EBITDA", 2025, some "1.0", "EUR", 0, 0⟩,
         ⟨0, "SAP SE", "SAP", "income", "Revenue", 2024, some "9.0", "EUR", 0, 0⟩]).2 :=
  C2_bulkUpsert_preserves_key_invariant
    [⟨0, "Siemens AG", "SIE", "income", "EBITDA", 2025, some "1.0", "EUR", 0, 0⟩,
     ⟨0, "SAP SE", "SAP", "income", "Revenue", 2024, some "9.0", "EUR", 0, 0⟩]
    [⟨3, "SAP SE", "SAP", "income", "Revenue", 2024, some "2.0", "EUR", 0, 0⟩] 5
    (by decide) (by decide) (by decide) (by decide)


/-! ## Claim C4 -/

/-- C4: if importing a CSV from state `(st0, ctr0)` succeeds and yields
state `st1`, importing the very same CSV again returns the same success
response and leaves a store with the same record count and the same
stored record per natural key — no duplicates, no field changes.
Hypotheses: the initial store satisfies the invariants with a fresh
counter (the empty store of the claim trivially does). -/
theorem C4_import_idempotent (rows : List (List String)) (st0 : Store) (ctr0 : Nat)
    (resp : ImportResponse) (st1 : Store) (ctr1 : Nat)
    (hKU : KeyUnique st0) (hID : IDUnique st0) (hB : IDsBelow st0 ctr0)
    (h1 : importCSV rows st0 ctr0 = (.ok resp, st1, ctr1)) :
    (importCSV rows st1 ctr1).1 = .ok resp ∧
    (importCSV rows st1 ctr1).2.1.length = st1.length ∧
    ∀ probe, lookupKey (importCSV rows st1 ctr1).2.1 probe = lookupKey st1 probe := by
  obtain ⟨header, dataRows, records, hrows, hv, hp, hne, hbulk, hresp⟩ :=
    importCSV_ok_inv rows st0 ctr0 resp st1 ctr1 h1
  subst hrows
  have h0 : ∀ r ∈ records, r.ID = 0 :=
    fun r hr => (parseRows_shape header.length dataRows 1 records hp r hr).2.1
  have hst1 : st1 = (bulkUpsert st0 ctr0 records).1 := by rw [hbulk]
  have hctr1 : ctr1 = (bulkUpsert st0 ctr0 records).2 := by rw [hbulk]
  obtain ⟨hKU1, hID1, hB1, -⟩ := bulkUpsert_preserves records st0 ctr0 h0 hKU hID hB
  rw [← hst1] at hKU1 hID1
  rw [← hst1, ← hctr1] at hB1
  have hchar1 := fun probe => bulkUpsert_lookup records st0 ctr0 probe h0 hKU hID hB
  have hchar2 := fun probe => bulkUpsert_lookup records st1 ctr1 probe h0 hKU1 hID1 hB1
  have hred := importCSV_build header dataRows records st1 ctr1 hv hp hne
  have hsome : ∀ r ∈ records, (lookupKey st1 r).isSome := by
    intro r hr
    have hmemf : r ∈ records.filter (fun x => sameKey x r) :=
      List.mem_filter.mpr ⟨hr, by simp [sameKey_refl]⟩
    have hnefil : records.filter (fun x => sameKey x r) ≠ [] :=
      List.ne_nil_of_mem hmemf
    obtain ⟨last, hlast⟩ :=
      Option.isSome_iff_exists.mp (List.getLast?_isSome.mpr hnefil)
    obtain ⟨e1, he1, -⟩ := (hchar1 r).2 last hlast
    rw [← hst1] at he1
    rw [he1]
    rfl
  refine ⟨?_, ?_, ?_⟩
  · rw [hred, hresp]
  · rw [hred]
    exact bulkUpsert_length records st1 ctr1 h0 hKU1 hID1 hB1 hsome
  · intro probe
    rw [hred]
    rcases hfil : records.filter (fun x => sameKey x probe) with _ | ⟨f1, fs⟩
    · exact (hchar2 probe).1 hfil
    · have hnefil : records.filter (fun x => sameKey x probe) ≠ [] := by
        rw [hfil]
        simp
      obtain ⟨last, hlast⟩ :=
        Option.isSome_iff_exists.mp (List.getLast?_isSome.mpr hnefil)
      obtain ⟨e1, he1, hkey1, hrt1, hva1, hcu1, hup1, -⟩ := (hchar1 probe).2 last hlast
      rw [← hst1] at he1
      obtain ⟨e2, he2, hkey2, hrt2, hva2, hcu2, hup2, hidc2⟩ := (hchar2 probe).2 last hlast
      obtain ⟨hi2, hca2⟩ := hidc2 e1 he1
      have heq : e2 = e1 :=
        DAXRecord.ext hi2
          (hkey2.1.trans hkey1.1.symm)
          (hkey2.2.1.trans hkey1.2.1.symm)
          (hrt2.trans hrt1.symm)
          (hkey2.2.2.1.trans hkey1.2.2.1.symm)
          (hkey2.2.2.2.trans hkey1.2.2.2.symm)
          (hva2.trans hva1.symm)
          (hcu2.trans hcu1.symm)
          hca2
          (hup2.trans hup1.symm)
      rw [he2, he1, heq]

/-- Witness for C4: the canonical one-row CSV imported twice from the
empty store. -/
theorem C4_import_idempotent_witness :
    (importCSV [["company", "ticker", "report_type", "metric", "year", "value", "currency"],
        ["Siemens AG", "SIE", "income", "EBITDA", "2025", "1000.0", "EUR"]]
      [⟨1, "Siemens AG", "SIE", "income", "EBITDA", 2025, some "1000.0", "EUR", 0, 0⟩] 2).1 =
      .ok ⟨1, "Successfully imported 1 records"⟩ ∧
    (importCSV [["company", "ticker", "report_type", "metric", "year", "value", "currency"],
        ["Siemens AG", "SIE", "income", "EBITDA", "2025", "1000.0", "EUR"]]
      [⟨1, "Siemens AG", "SIE", "income", "EBITDA", 2025, some "1000.0", "EUR", 0, 0⟩] 2).2.1.length =
      ([⟨1, "Siemens AG", "SIE", "income", "EBITDA", 2025, some "1000.0", "EUR", 0, 0⟩] : Store).length ∧
    ∀ probe, lookupKey
        (importCSV [["company", "ticker", "report_type", "metric", "year", "value", "currency"],
          ["Siemens AG", "SIE", "income", "EBITDA", "2025", "1000.0", "EUR"]]
        [⟨1, "Siemens AG", "SIE", "income", "EBITDA", 2025, some "1000.0", "EUR", 0, 0⟩] 2).2.1 probe =
      lookupKey [⟨1, "Siemens AG", "SIE", "income", "EBITDA", 2025, some "1000.0", "EUR", 0, 0⟩] probe :=
  C4_import_idempotent
    [["company", "ticker", "report_type", "metric", "year", "value", "currency"],
     ["Siemens AG", "SIE", "income", "EBITDA", "2025", "1000.0", "EUR"]]
    [] 1 ⟨1, "Successfully imported 1 records"⟩
    [⟨1, "Siemens AG", "SIE", "income", "EBITDA", 2025, some "1000.0", "EUR", 0, 0⟩] 2
    (by decide) (by decide) (by decide) (by rfl)


/-! ## Pagination arithmetic -/

/-- Euclidean-division form of the ceiling: for `l ≥ 1`,
`(t + l - 1) / l = -((-t) / l)`. -/
theorem ediv_ceil_aux (t l : Int) (hl : 1 ≤ l) :
    (t + l - 1) / l = -((-t) / l) := by
  have hl0 : l ≠ 0 := by omega
  have hq := Int.ediv_add_emod t l
  have hr0 : 0 ≤ t % l := Int.emod_nonneg t hl0
  have hrl : t % l < l := Int.emod_lt_of_pos t (by omega)
  by_cases hr : t % l = 0
  · have hm1 : l * (-(t / l)) = -(l * (t / l)) := by ring
    have h1 : t + l - 1 = (l - 1) + l * (t / l) := by omega
    have h2 : -t = l * (-(t / l)) := by omega
    have hz : (l - 1) / l = 0 := Int.ediv_eq_zero_of_lt (by omega) (by omega)
    rw [h1, Int.add_mul_ediv_left _ _ hl0, hz, h2, Int.mul_ediv_cancel_left _ hl0]
    omega
  · have hm1 : l * (t / l + 1) = l * (t / l) + l := by ring
    have hm2 : l * (-(t / l) - 1) = -(l * (t / l)) - l := by ring
    have h1 : t + l - 1 = (t % l - 1) + l * (t / l + 1) := by omega
    have h2 : -t = (l - t % l) + l * (-(t / l) - 1) := by omega
    have hz1 : (t % l - 1) / l = 0 := Int.ediv_eq_zero_of_lt (by omega) (by omega)
    have hz2 : (l - t % l) / l = 0 := Int.ediv_eq_zero_of_lt (by omega) (by omega)
    rw [h1, Int.add_mul_ediv_left _ _ hl0, hz1, h2, Int.add_mul_ediv_left _ _ hl0, hz2]
    omega

/-- `(total + limit - 1) / limit` — the expression the service computes —
is exactly the ceiling of the exact quotient. -/
theorem ceil_formula (t l : Int) (hl : 1 ≤ l) :
    Int.ceil ((t : ℚ) / (l : ℚ)) = (t + l - 1) / l := by
  rw [ediv_ceil_aux t l hl]
  have hlnat : ((l.toNat : ℤ)) = l := Int.toNat_of_nonneg (by omega)
  have hlq : ((l.toNat : ℕ) : ℚ) = (l : ℚ) := by
    rw [← hlnat]
    push_cast
    rfl
  rw [show ((t : ℚ) / (l : ℚ)) = -((((-t) : ℤ) : ℚ) / ((l.toNat : ℕ) : ℚ)) by
    rw [hlq]
    push_cast
    ring]
  rw [Int.ceil_neg]
  rw [Rat.floor_intCast_div_natCast (-t) l.toNat, hlnat]


/-- With a page of at least 1 and a positive limit — which the service
clamps guarantee — pagination never panics and always reports the
pre-pagination total. -/
theorem paginate_some (all : List DAXRecord) (page limit : Int) (hp : 1 ≤ page)
    (hl : 1 ≤ limit) :
    ∃ pd, paginate all page limit = some (pd, all.length) := by
  have hlen : (all.insertionSort daxLE).length = all.length :=
    (List.perm_insertionSort daxLE all).length_eq
  simp only [paginate, hlen]
  have hoff : 0 ≤ (page - 1) * limit := mul_nonneg (by omega) (by omega)
  by_cases hc : (page - 1) * limit ≥ (all.length : Int)
  · rw [if_pos hc]
    exact ⟨[], rfl⟩
  · rw [if_neg hc]
    by_cases hcl : (page - 1) * limit + limit > (all.length : Int)
    · rw [if_pos hcl]
      unfold goSlice
      rw [hlen, if_pos ⟨hoff, by omega, by omega⟩]
      exact ⟨_, rfl⟩
    · rw [if_neg hcl]
      unfold goSlice
      rw [hlen, if_pos ⟨hoff, by omega, by omega⟩]
      exact ⟨_, rfl⟩

/-! ## Claim C7 -/

/-- C7: `GetAll` and `GetByFilters` clamp the page to 1 when below 1 and
the limit to the default 10 when outside [1,100], and the returned
metadata always satisfies `totalPages = ⌈totalCount / limit⌉`, with a zero
total yielding zero pages.  The total is the full (pre-pagination)
matching count. -/
theorem C7_service_clamps_and_pages (st : Store) (ticker : String)
    (year : Option Int) (page limit : Int) :
    (∃ resp, getAll st page limit = some resp ∧
      resp.Pagination.Page = (if page < 1 then 1 else page) ∧
      resp.Pagination.Limit = (if limit < 1 ∨ limit > 100 then 10 else limit) ∧
      resp.Pagination.TotalCount = (st.length : Int) ∧
      resp.Pagination.TotalPages =
        Int.ceil ((resp.Pagination.TotalCount : ℚ) / (resp.Pagination.Limit : ℚ)) ∧
      (resp.Pagination.TotalCount = 0 → resp.Pagination.TotalPages = 0)) ∧
    (∃ resp, getByFilters st ticker year page limit = some resp ∧
      resp.Pagination.Page = (if page < 1 then 1 else page) ∧
      resp.Pagination.Limit = (if limit < 1 ∨ limit > 100 then 10 else limit) ∧
      resp.Pagination.TotalCount = ((st.filter (matchesFilters ticker year)).length : Int) ∧
      resp.Pagination.TotalPages =
        Int.ceil ((resp.Pagination.TotalCount : ℚ) / (resp.Pagination.Limit : ℚ)) ∧
      (resp.Pagination.TotalCount = 0 → resp.Pagination.TotalPages = 0)) := by
  have hp1 : 1 ≤ clampPage page := by
    unfold clampPage
    split <;> omega
  have hl1 : 1 ≤ clampLimit limit := by
    unfold clampLimit
    split <;> omega
  have hl100 : clampLimit limit ≤ 100 := by
    unfold clampLimit
    split <;> omega
  constructor
  · obtain ⟨pd, hpg⟩ := paginate_some st (clampPage page) (clampLimit limit) hp1 hl1
    have hget : getAll st page limit = some
        { Data := pd
          Pagination :=
            { Page := clampPage page, Limit := clampLimit limit
              TotalCount := (st.length : Int)
              TotalPages := ((st.length : Int) + clampLimit limit - 1) / clampLimit limit } } := by
      simp only [getAll, findAll]
      rw [hpg]
      rfl
    refine ⟨_, hget, rfl, rfl, rfl, ?_, ?_⟩
    · exact (ceil_formula (st.length : Int) (clampLimit limit) hl1).symm
    · intro h0
      show ((st.length : Int) + clampLimit limit - 1) / clampLimit limit = 0
      have h00 : (st.length : Int) = 0 := h0
      have hnum : (st.length : Int) + clampLimit limit - 1 = clampLimit limit - 1 := by
        omega
      rw [hnum]
      exact Int.ediv_eq_zero_of_lt (by omega) (by omega)
  · obtain ⟨pd, hpg⟩ := paginate_some (st.filter (matchesFilters ticker year))
      (clampPage page) (clampLimit limit) hp1 hl1
    have hget : getByFilters st ticker year page limit = some
        { Data := pd
          Pagination :=
            { Page := clampPage page, Limit := clampLimit limit
              TotalCount := ((st.filter (matchesFilters ticker year)).length : Int)
              TotalPages := (((st.filter (matchesFilters ticker year)).length : Int) +
                clampLimit limit - 1) / clampLimit limit } } := by
      simp only [getByFilters, findByFilters]
      rw [hpg]
      rfl
    refine ⟨_, hget, rfl, rfl, rfl, ?_, ?_⟩
    · exact (ceil_formula _ (clampLimit limit) hl1).symm
    · intro h0
      show (((st.filter (matchesFilters ticker year)).length : Int) +
          clampLimit limit - 1) / clampLimit limit = 0
      have h00 : ((st.filter (matchesFilters ticker year)).length : Int) = 0 := h0
      have hnum : ((st.filter (matchesFilters ticker year)).length : Int) +
          clampLimit limit - 1 = clampLimit limit - 1 := by
        omega
      rw [hnum]
      exact Int.ediv_eq_zero_of_lt (by omega) (by omega)


/-- Pagination additionally returns a page sorted in the spec's order
(year descending, ticker ascending, metric ascending): the page is a
contiguous slice of the sorted copy. -/
theorem paginate_sorted (all : List DAXRecord) (page limit : Int) (hp : 1 ≤ page)
    (hl : 1 ≤ limit) :
    ∃ pd, paginate all page limit = some (pd, all.length) ∧
      List.Pairwise specLE pd := by
  have hlen : (all.insertionSort daxLE).length = all.length :=
    (List.perm_insertionSort daxLE all).length_eq
  have hsorted : (all.insertionSort daxLE).Pairwise daxLE :=
    List.sorted_insertionSort daxLE all
  have hsub : ∀ (n m : Nat),
      List.Pairwise specLE (((all.insertionSort daxLE).drop n).take m) := by
    intro n m
    have hs : (((all.insertionSort daxLE).drop n).take m).Pairwise daxLE :=
      List.Pairwise.sublist
        ((List.take_sublist _ _).trans (List.drop_sublist _ _)) hsorted
    exact hs.imp (fun {a b} h => (daxLE_iff_specLE a b).mp h)
  simp only [paginate, hlen]
  have hoff : 0 ≤ (page - 1) * limit := mul_nonneg (by omega) (by omega)
  by_cases hc : (page - 1) * limit ≥ (all.length : Int)
  · rw [if_pos hc]
    exact ⟨[], rfl, List.Pairwise.nil⟩
  · rw [if_neg hc]
    by_cases hcl : (page - 1) * limit + limit > (all.length : Int)
    · rw [if_pos hcl]
      unfold goSlice
      rw [hlen, if_pos ⟨hoff, by omega, by omega⟩]
      exact ⟨_, rfl, hsub _ _⟩
    · rw [if_neg hcl]
      unfold goSlice
      rw [hlen, if_pos ⟨hoff, by omega, by omega⟩]
      exact ⟨_, rfl, hsub _ _⟩

/-- Two stores with the same contents whose records have pairwise distinct
(Year, Ticker, Metric) triples sort to the same list: the comparator is a
strict total order on such records. -/
theorem insertionSort_eq_of_perm_of_distinct (l1 l2 : Store) (hperm : l1.Perm l2)
    (hd : l1.Pairwise
      (fun a b => ¬(a.Year = b.Year ∧ a.Ticker = b.Ticker ∧ a.Metric = b.Metric))) :
    l1.insertionSort daxLE = l2.insertionSort daxLE := by
  have hsymm : ∀ {x y : DAXRecord},
      ¬(x.Year = y.Year ∧ x.Ticker = y.Ticker ∧ x.Metric = y.Metric) →
      ¬(y.Year = x.Year ∧ y.Ticker = x.Ticker ∧ y.Metric = x.Metric) := by
    intro x y h hc
    exact h ⟨hc.1.symm, hc.2.1.symm, hc.2.2.symm⟩
  have strict : ∀ (l : Store),
      l.Pairwise daxLE →
      l.Pairwise (fun a b => ¬(a.Year = b.Year ∧ a.Ticker = b.Ticker ∧ a.Metric = b.Metric)) →
      l.Pairwise daxLT := by
    intro l hs hdl
    refine (hs.and hdl).imp ?_
    intro a b hab
    cases h : daxLess a b with
    | true => exact h
    | false => exact absurd (daxLess_connex h hab.1) hab.2
  have hd2 : l2.Pairwise
      (fun a b => ¬(a.Year = b.Year ∧ a.Ticker = b.Ticker ∧ a.Metric = b.Metric)) :=
    (hperm.pairwise_iff hsymm).mp hd
  have hchain : (l1.insertionSort daxLE).Perm (l2.insertionSort daxLE) :=
    ((List.perm_insertionSort daxLE l1).trans hperm).trans
      (List.perm_insertionSort daxLE l2).symm
  have hstrict1 : List.Sorted daxLT (l1.insertionSort daxLE) :=
    strict _ (List.sorted_insertionSort daxLE l1)
      (((List.perm_insertionSort daxLE l1).pairwise_iff hsymm).mpr hd)
  have hstrict2 : List.Sorted daxLT (l2.insertionSort daxLE) :=
    strict _ (List.sorted_insertionSort daxLE l2)
      (((List.perm_insertionSort daxLE l2).pairwise_iff hsymm).mpr hd2)
  exact List.eq_of_perm_of_sorted hchain hstrict1 hstrict2

/-- `paginate` depends on the store only through its sorted copy. -/
theorem paginate_eq_of_sort_eq (l1 l2 : Store)
    (h : l1.insertionSort daxLE = l2.insertionSort daxLE) (page limit : Int) :
    paginate l1 page limit = paginate l2 page limit := by
  simp only [paginate, h]

/-! ## Claim C8 -/

/-- C8 counterexample: two stores with the same contents (a permutation
pair) whose two records agree on Year, Ticker and Metric and differ only
in Company.  The comparator never inspects Company, so the relative order
of the tied records is inherited from the (unspecified) map iteration
order, and the two admissible iteration orders produce different `FindAll`
results: the output order is **not** a function of the store contents. -/
theorem C8_order_depends_on_iteration_order :
    ([⟨1, "X", "SIE", "", "EBITDA", 2025, none, "EUR", 0, 0⟩,
      ⟨2, "Y", "SIE", "", "EBITDA", 2025, none, "EUR", 0, 0⟩] : Store).Perm
      [⟨2, "Y", "SIE", "", "EBITDA", 2025, none, "EUR", 0, 0⟩,
       ⟨1, "X", "SIE", "", "EBITDA", 2025, none, "EUR", 0, 0⟩] ∧
    findAll [⟨1, "X", "SIE", "", "EBITDA", 2025, none, "EUR", 0, 0⟩,
      ⟨2, "Y", "SIE", "", "EBITDA", 2025, none, "EUR", 0, 0⟩] 1 10 ≠
    findAll [⟨2, "Y", "SIE", "", "EBITDA", 2025, none, "EUR", 0, 0⟩,
      ⟨1, "X", "SIE", "", "EBITDA", 2025, none, "EUR", 0, 0⟩] 1 10 :=
  ⟨List.Perm.swap _ _ _, by decide⟩

/-- C8 (amended): for page ≥ 1 and limit ≥ 1 (which the service clamps
guarantee), `FindAll` and `FindByFilters` return the page sorted by Year
descending, then Ticker ascending, then Metric ascending, together with
the full pre-pagination matching count; and the output is a function of
the store contents alone **provided** the stored records carry pairwise
distinct (Year, Ticker, Metric) triples — records tying on all three sort
fields (differing only in Company) may appear in either relative order. -/
theorem C8_find_sorted_and_total (st1 st2 : Store) (ticker : String)
    (year : Option Int) (page limit : Int) (hp : 1 ≤ page) (hl : 1 ≤ limit) :
    (∃ pd, findAll st1 page limit = some (pd, st1.length) ∧
      List.Pairwise specLE pd) ∧
    (∃ pd, findByFilters st1 ticker year page limit =
        some (pd, (st1.filter (matchesFilters ticker year)).length) ∧
      List.Pairwise specLE pd) ∧
    (st1.Perm st2 →
      st1.Pairwise
        (fun a b => ¬(a.Year = b.Year ∧ a.Ticker = b.Ticker ∧ a.Metric = b.Metric)) →
      findAll st1 page limit = findAll st2 page limit ∧
      findByFilters st1 ticker year page limit =
        findByFilters st2 ticker year page limit) := by
  refine ⟨paginate_sorted st1 page limit hp hl,
    paginate_sorted (st1.filter (matchesFilters ticker year)) page limit hp hl,
    fun hperm hdist => ⟨?_, ?_⟩⟩
  · exact paginate_eq_of_sort_eq st1 st2
      (insertionSort_eq_of_perm_of_distinct st1 st2 hperm hdist) page limit
  · exact paginate_eq_of_sort_eq _ _
      (insertionSort_eq_of_perm_of_distinct _ _
        (hperm.filter (matchesFilters ticker year))
        (hdist.filter (matchesFilters ticker year))) page limit

/-- Witness for the amended C8 on two-element stores with distinct sort
triples. -/
theorem C8_find_sorted_and_total_witness :
    (∃ pd, findAll [⟨1, "Siemens AG", "SIE", "", "EBITDA", 2025, none, "EUR", 0, 0⟩,
        ⟨2, "SAP SE", "SAP", "", "Revenue", 2024, none, "EUR", 0, 0⟩] 1 10 =
        some (pd, ([⟨1, "Siemens AG", "SIE", "", "EBITDA", 2025, none, "EUR", 0, 0⟩,
          ⟨2, "SAP SE", "SAP", "", "Revenue", 2024, none, "EUR", 0, 0⟩] : Store).length) ∧
      List.Pairwise specLE pd) ∧
    (∃ pd, findByFilters [⟨1, "Siemens AG", "SIE", "", "EBITDA", 2025, none, "EUR", 0, 0⟩,
        ⟨2, "SAP SE", "SAP", "", "Revenue", 2024, none, "EUR", 0, 0⟩] "SIE" none 1 10 =
        some (pd, (([⟨1, "Siemens AG", "SIE", "", "EBITDA", 2025, none, "EUR", 0, 0⟩,
          ⟨2, "SAP SE", "SAP", "", "Revenue", 2024, none, "EUR", 0, 0⟩] : Store).filter
            (matchesFilters "SIE" none)).length) ∧
      List.Pairwise specLE pd) ∧
    (([⟨1, "Siemens AG", "SIE", "", "EBITDA", 2025, none, "EUR", 0, 0⟩,
       ⟨2, "SAP SE", "SAP", "", "Revenue", 2024, none, "EUR", 0, 0⟩] : Store).Perm
        [⟨2, "SAP SE", "SAP", "", "Revenue", 2024, none, "EUR", 0, 0⟩,
         ⟨1, "Siemens AG", "SIE", "", "EBITDA", 2025, none, "EUR", 0, 0⟩] →
      ([⟨1, "Siemens AG", "SIE", "", "EBITDA", 2025, none, "EUR", 0, 0⟩,
        ⟨2, "SAP SE", "SAP", "", "Revenue", 2024, none, "EUR", 0, 0⟩] : Store).Pairwise
        (fun a b => ¬(a.Year = b.Year ∧ a.Ticker = b.Ticker ∧ a.Metric = b.Metric)) →
      findAll [⟨1, "Siemens AG", "SIE", "", "EBITDA", 2025, none, "EUR", 0, 0⟩,
        ⟨2, "SAP SE", "SAP", "", "Revenue", 2024, none, "EUR", 0, 0⟩] 1 10 =
        findAll [⟨2, "SAP SE", "SAP", "", "Revenue", 2024, none, "EUR", 0, 0⟩,
          ⟨1, "Siemens AG", "SIE", "", "EBITDA", 2025, none, "EUR", 0, 0⟩] 1 10 ∧
      findByFilters [⟨1, "Siemens AG", "SIE", "", "EBITDA", 2025, none, "EUR", 0, 0⟩,
        ⟨2, "SAP SE", "SAP", "", "Revenue", 2024, none, "EUR", 0, 0⟩] "SIE" none 1 10 =
        findByFilters [⟨2, "SAP SE", "SAP", "", "Revenue", 2024, none, "EUR", 0, 0⟩,
          ⟨1, "Siemens AG", "SIE", "", "EBITDA", 2025, none, "EUR", 0, 0⟩] "SIE" none 1 10) :=
  C8_find_sorted_and_total
    [⟨1, "Siemens AG", "SIE", "", "EBITDA", 2025, none, "EUR", 0, 0⟩,
     ⟨2, "SAP SE", "SAP", "", "Revenue", 2024, none, "EUR", 0, 0⟩]
    [⟨2, "SAP SE", "SAP", "", "Revenue", 2024, none, "EUR", 0, 0⟩,
     ⟨1, "Siemens AG", "SIE", "", "EBITDA", 2025, none, "EUR", 0, 0⟩]
    "SIE" none 1 10 (by decide) (by decide)

/-- Witness for C7 at out-of-range page and limit on the empty store. -/
theorem C7_service_clamps_and_pages_witness :
    (∃ resp, getAll [] 0 500 = some resp ∧
      resp.Pagination.Page = (if (0 : Int) < 1 then 1 else 0) ∧
      resp.Pagination.Limit = (if (500 : Int) < 1 ∨ (500 : Int) > 100 then 10 else 500) ∧
      resp.Pagination.TotalCount = (([] : Store).length : Int) ∧
      resp.Pagination.TotalPages =
        Int.ceil ((resp.Pagination.TotalCount : ℚ) / (resp.Pagination.Limit : ℚ)) ∧
      (resp.Pagination.TotalCount = 0 → resp.Pagination.TotalPages = 0)) ∧
    (∃ resp, getByFilters [] "SIE" (some 2025) 0 500 = some resp ∧
      resp.Pagination.Page = (if (0 : Int) < 1 then 1 else 0) ∧
      resp.Pagination.Limit = (if (500 : Int) < 1 ∨ (500 : Int) > 100 then 10 else 500) ∧
      resp.Pagination.TotalCount =
        ((([] : Store).filter (matchesFilters "SIE" (some 2025))).length : Int) ∧
      resp.Pagination.TotalPages =
        Int.ceil ((resp.Pagination.TotalCount : ℚ) / (resp.Pagination.Limit : ℚ)) ∧
      (resp.Pagination.TotalCount = 0 → resp.Pagination.TotalPages = 0)) :=
  C7_service_clamps_and_pages [] "SIE" (some 2025) 0 500


/-! ## Claim C6 -/

theorem mapInsertPtr_mem (st : Ptr.PtrStore) (key addr : Nat) (e : Nat × Nat)
    (he : e ∈ Ptr.mapInsertPtr st key addr) : e ∈ st ∨ e.2 = addr := by
  unfold Ptr.mapInsertPtr at he
  split at he
  · rw [List.mem_map] at he
    obtain ⟨x, hx, hxe⟩ := he
    by_cases hk : x.1 = key
    · rw [if_pos (by simp [hk])] at hxe
      right
      rw [← hxe]
    · rw [if_neg (by simp [hk])] at hxe
      left
      rw [← hxe]
      exact hx
  · rcases List.mem_append.mp he with h | h
    · exact Or.inl h
    · rw [List.mem_singleton] at h
      right
      rw [h]

theorem upsertOnePtr_mem (h : Ptr.Heap) (st : Ptr.PtrStore) (ctr addr : Nat)
    (e : Nat × Nat) (he : e ∈ (Ptr.upsertOnePtr h st ctr addr).2.1) :
    e ∈ st ∨ e.2 = addr := by
  simp only [Ptr.upsertOnePtr] at he
  split at he
  · exact mapInsertPtr_mem _ _ _ _ he
  · exact mapInsertPtr_mem _ _ _ _ he

/-- C6 counterexample: the caller hands `BulkUpsert` a slice holding one
record with Value 42 (heap address 0); after the call the store maps the
fresh identifier to **that very address**, so when the caller overwrites
its own record's Value with 999, `FindAll` on the untouched store now
returns 999 — external mutation reached the stored state, contradicting
the claim that callers never hold live references. -/
theorem C6_caller_mutation_reaches_store :
    Ptr.findAllPtr
        (Ptr.bulkUpsertPtr
          [⟨0, "Siemens AG", "SIE", "income", "EBITDA", 2025, some "42", "EUR", 0, 0⟩]
          [] 1 0 1).1
        (Ptr.bulkUpsertPtr
          [⟨0, "Siemens AG", "SIE", "income", "EBITDA", 2025, some "42", "EUR", 0, 0⟩]
          [] 1 0 1).2.1 1 10 =
      some ([⟨1, "Siemens AG", "SIE", "income", "EBITDA", 2025, some "42", "EUR", 0, 0⟩], 1) ∧
    Ptr.findAllPtr
        (Ptr.hset
          (Ptr.bulkUpsertPtr
            [⟨0, "Siemens AG", "SIE", "income", "EBITDA", 2025, some "42", "EUR", 0, 0⟩]
            [] 1 0 1).1
          0 ⟨1, "Siemens AG", "SIE", "income", "EBITDA", 2025, some "999", "EUR", 0, 0⟩)
        (Ptr.bulkUpsertPtr
          [⟨0, "Siemens AG", "SIE", "income", "EBITDA", 2025, some "42", "EUR", 0, 0⟩]
          [] 1 0 1).2.1 1 10 =
      some ([⟨1, "Siemens AG", "SIE", "income", "EBITDA", 2025, some "999", "EUR", 0, 0⟩], 1) :=
  ⟨by decide, by decide⟩

/-- C6 (amended): reads copy record values out of the heap, but the
in-memory `BulkUpsert` and `Create` retain the caller's pointers: every
map entry they add holds an address inside the caller's slice
(`[base, base + len)` for `BulkUpsert`, the passed address for `Create`),
so mutating the caller's records after the call changes what `FindAll`
subsequently returns (see the counterexample). -/
theorem C6_writes_store_caller_addresses (h : Ptr.Heap) (st : Ptr.PtrStore)
    (ctr base addr : Nat) :
    (∀ len, ∀ e ∈ (Ptr.bulkUpsertPtr h st ctr base len).2.1,
      e ∈ st ∨ (base ≤ e.2 ∧ e.2 < base + len)) ∧
    (∀ e ∈ (Ptr.createPtr h st ctr addr).2.1, e ∈ st ∨ e.2 = addr) := by
  constructor
  · intro len
    induction len generalizing h st ctr with
    | zero =>
      intro e he
      exact Or.inl he
    | succ n ih =>
      intro e he
      rw [show Ptr.bulkUpsertPtr h st ctr base (n + 1) =
          Ptr.upsertOnePtr (Ptr.bulkUpsertPtr h st ctr base n).1
            (Ptr.bulkUpsertPtr h st ctr base n).2.1
            (Ptr.bulkUpsertPtr h st ctr base n).2.2 (base + n) from by
        unfold Ptr.bulkUpsertPtr
        rw [List.range_succ, List.foldl_append]
        rfl] at he
      rcases upsertOnePtr_mem _ _ _ _ e he with h1 | h1
      · rcases ih h st ctr e h1 with h2 | h2
        · exact Or.inl h2
        · exact Or.inr ⟨h2.1, by omega⟩
      · exact Or.inr ⟨by omega, by omega⟩
  · intro e he
    unfold Ptr.createPtr at he
    exact mapInsertPtr_mem _ _ _ _ he

/-- Witness for the amended C6 at the counterexample's configuration. -/
theorem C6_writes_store_caller_addresses_witness :
    ((1, 0) ∈ (Ptr.bulkUpsertPtr
        [⟨0, "Siemens AG", "SIE", "income", "EBITDA", 2025, some "42", "EUR", 0, 0⟩]
        [] 1 0 1).2.1) ∧
    ((1, 0) ∈ ([] : Ptr.PtrStore) ∨ (0 ≤ 0 ∧ 0 < 0 + 1)) :=
  ⟨by decide,
   (C6_writes_store_caller_addresses
      [⟨0, "Siemens AG", "SIE", "income", "EBITDA", 2025, some "42", "EUR", 0, 0⟩]
      [] 1 0 0).1 1 (1, 0) (by decide)⟩

end Dax
